import Mathlib

/-!
# Profile resolution, validation and patching (core/profile.go)

A shallow embedding of `core/profile.go` of openbazaar-go, and of
`GetAPIConfig` of `repo/config.go`.

* Go strings are Lean strings; `len` is the UTF-8 byte length, as in Go.
* A Go `error` result is an `Option String`: `none` is `nil`, `some m` is an
  error whose message is `m`.
* Collaborators outside the file (content network, datastore, protobuf and
  JSON codecs, wallet, clock) are parameters.
* Goroutines started by a function are returned as data (`Task`) and run by
  `runTask` against the datastore and clock of the moment they run.
-/

namespace OpenBazaar

/-! ## Go primitives -/

/-- Byte length of a string, the Go builtin `len` on a string. -/
def len (s : String) : Nat := s.utf8ByteSize

/-- Substring test of the Go standard library, `strings.Contains`. On UTF-8
text a byte-level occurrence of `substr` is a character-level occurrence. -/
def strings.Contains (s substr : String) : Bool :=
  decide (substr.data <:+: s.data)

/-- Prefix removal of the Go standard library, `strings.TrimPrefix`. -/
def strings.TrimPrefix (s pre : String) : String :=
  if pre.data <+: s.data then String.mk (s.data.drop pre.data.length) else s

/-- Rendering of `fmt.Errorf(msg + "%d", n)`: the message followed by the
decimal digits of `n`. -/
def fmtErrorf (msg : String) (n : Nat) : String := msg ++ toString n

/-- An IEEE 754 binary32 number, the Go type `float32`, by its three fields:
sign bit, biased exponent (8 bits) and fraction (23 bits). -/
structure GoFloat32 where
  sign : Bool
  exponent : Nat
  mantissa : Nat
  exponent_lt : exponent < 256
  mantissa_lt : mantissa < 8388608
  deriving DecidableEq

namespace GoFloat32

/-- Not-a-number: all exponent bits set and a non-zero fraction. -/
def isNaN (x : GoFloat32) : Bool := x.exponent == 255 && x.mantissa != 0

/-- Magnitude of a non-NaN value in units of `2 ^ (-149)` (the smallest
subnormal). Subnormals (`exponent = 0`) have no implicit leading bit. The
infinities (`exponent = 255`, `mantissa = 0`) get `2 ^ 277`, above every
finite magnitude. -/
def magnitude (x : GoFloat32) : Nat :=
  if x.exponent = 0 then x.mantissa else (8388608 + x.mantissa) * 2 ^ (x.exponent - 1)

/-- Value of a non-NaN number in units of `2 ^ (-149)`; both zeros give 0. -/
def scaled (x : GoFloat32) : Int :=
  if x.sign then -(x.magnitude : Int) else (x.magnitude : Int)

/-- The comparison `x > y` on `float32`: false as soon as one side is NaN. -/
def gt (x y : GoFloat32) : Bool :=
  !x.isNaN && !y.isNaN && decide (y.scaled < x.scaled)

/-- The comparison `x <= y` on `float32`: false as soon as one side is NaN. -/
def le (x y : GoFloat32) : Bool :=
  !x.isNaN && !y.isNaN && decide (x.scaled ≤ y.scaled)

/-- The constant `5`, that is `1.25 * 2 ^ 2`. -/
def five : GoFloat32 := ⟨false, 129, 2097152, by decide, by decide⟩

/-- The value `5.5`, that is `1.375 * 2 ^ 2`. -/
def fiveAndHalf : GoFloat32 := ⟨false, 129, 3145728, by decide, by decide⟩

/-- The value `+0`. -/
def zero : GoFloat32 := ⟨false, 0, 0, by decide, by decide⟩

/-- A quiet NaN. -/
def nan : GoFloat32 := ⟨false, 255, 4194304, by decide, by decide⟩

end GoFloat32

/-! ## The profile document (package pb) -/

/-- Modelled from the spec: the generated message `pb.Profile.SocialAccount`
is not among the sources; the fields are those `ValidateProfile` reads. -/
structure SocialAccount where
  type : String := ""
  username : String := ""
  proof : String := ""
  deriving DecidableEq

/-- Modelled from the spec: the generated message `pb.Profile.Contact` is not
among the sources; website, email, phone and the list of social accounts. -/
structure ContactInfo where
  website : String := ""
  email : String := ""
  phoneNumber : String := ""
  social : List SocialAccount := []
  deriving DecidableEq

/-- Modelled from the spec: the fixed fee of a moderator (generated message
not among the sources): a currency code and an amount. -/
structure FixedFee where
  currencyCode : String := ""
  amount : Nat := 0
  deriving DecidableEq

/-- Modelled from the spec: the fee schedule of a moderator (generated message
not among the sources); `fixedFee` is a pointer, so it may be absent. -/
structure ModeratorFee where
  fixedFee : Option FixedFee := none
  percentage : Nat := 0
  feeType : Nat := 0
  deriving DecidableEq

/-- Modelled from the spec: the generated message `pb.Moderator` is not among
the sources; description, terms, supported languages, accepted currency and
fee schedule. -/
structure ModeratorInfo where
  description : String := ""
  termsAndConditions : String := ""
  languages : List String := []
  acceptedCurrency : String := ""
  fee : Option ModeratorFee := none
  deriving DecidableEq

/-- Modelled from the spec: the generated message `pb.Profile.Image` is not
among the sources; five size variants of one image, each a content address. -/
structure ImageHashes where
  tiny : String := ""
  small : String := ""
  medium : String := ""
  large : String := ""
  original : String := ""
  deriving DecidableEq

/-- Modelled from the spec: the generated message `pb.Profile.Stats` is not
among the sources; three `uint32` counts and a `float32` rating. -/
structure Stats where
  followerCount : Nat := 0
  followingCount : Nat := 0
  listingCount : Nat := 0
  averageRating : GoFloat32 := GoFloat32.zero
  deriving DecidableEq

/-- Modelled from the spec: the generated message `pb.Profile` is not among
the sources; the fields are those of the spec data model and those that
profile.go reads or writes. Pointer-typed fields are options. The timestamp
`lastModified` is in nanoseconds since the Unix epoch. -/
structure Profile where
  peerID : String := ""
  handle : String := ""
  name : String := ""
  location : String := ""
  about : String := ""
  shortDescription : String := ""
  moderator : Bool := false
  contactInfo : Option ContactInfo := none
  moderatorInfo : Option ModeratorInfo := none
  avatarHashes : Option ImageHashes := none
  headerHashes : Option ImageHashes := none
  stats : Option Stats := none
  bitcoinPubkey : String := ""
  lastModified : Option Int := none
  deriving DecidableEq

/-- The length and list-size maxima that `ValidateProfile` compares against.
They are constants of package core declared outside profile.go, so they are
parameters here. -/
structure Limits where
  WordMaxCharacters : Nat
  SentenceMaxCharacters : Nat
  ShortDescriptionLength : Nat
  AboutMaxCharacters : Nat
  PolicyMaxCharacters : Nat
  URLMaxCharacters : Nat
  MaxListItems : Nat

/-! ## ValidateProfile -/

/-- One `if cond then return err` statement: the error when the condition
holds. -/
def failIf (cond : Bool) (err : String) : Option String :=
  if cond then some err else none

/-- Sequential composition of checks with early return: the first error, in
list order, is the result; `none` when no check fails. -/
def firstError : List (Option String) → Option String
  | [] => none
  | some e :: _ => some e
  | none :: rest => firstError rest

/-- The loop over `profile.ContactInfo.Social` (lines 320 to 330). -/
def validateSocial (L : Limits) : List SocialAccount → Option String
  | [] => none
  | s :: rest =>
    firstError [
      failIf (len s.username > L.WordMaxCharacters)
        (fmtErrorf "Social username character length is greater than the max of " L.WordMaxCharacters),
      failIf (len s.type > L.WordMaxCharacters)
        (fmtErrorf "Social account type character length is greater than the max of " L.WordMaxCharacters),
      failIf (len s.proof > L.URLMaxCharacters)
        (fmtErrorf "Social proof character length is greater than the max of " L.WordMaxCharacters),
      validateSocial L rest]

/-- The block guarded by `profile.ContactInfo != nil` (lines 307 to 331). -/
def validateContactInfo (L : Limits) : Option ContactInfo → Option String
  | none => none
  | some c =>
    firstError [
      failIf (len c.website > L.URLMaxCharacters)
        (fmtErrorf "Website character length is greater than the max of " L.URLMaxCharacters),
      failIf (len c.email > L.SentenceMaxCharacters)
        (fmtErrorf "Email character length is greater than the max of " L.SentenceMaxCharacters),
      failIf (len c.phoneNumber > L.WordMaxCharacters)
        (fmtErrorf "Phone number character length is greater than the max of " L.WordMaxCharacters),
      failIf (c.social.length > L.MaxListItems)
        (fmtErrorf "Number of social accounts is greater than the max of " L.MaxListItems),
      validateSocial L c.social]

/-- The loop over `profile.ModeratorInfo.Languages` (lines 342 to 346). -/
def validateLanguages (L : Limits) : List String → Option String
  | [] => none
  | l :: rest =>
    firstError [
      failIf (len l > L.WordMaxCharacters)
        (fmtErrorf "Moderator language character length is greater than the max of " L.WordMaxCharacters),
      validateLanguages L rest]

/-- The check nested under `Fee != nil` and `Fee.FixedFee != nil`
(lines 347 to 353). -/
def validateFee (L : Limits) : Option ModeratorFee → Option String
  | none => none
  | some fee =>
    match fee.fixedFee with
    | none => none
    | some fixed =>
      failIf (len fixed.currencyCode > L.WordMaxCharacters)
        (fmtErrorf "Moderator fee currency code character length is greater than the max of " L.WordMaxCharacters)

/-- The block guarded by `profile.ModeratorInfo != nil` (lines 332 to 354). -/
def validateModeratorInfo (L : Limits) : Option ModeratorInfo → Option String
  | none => none
  | some m =>
    firstError [
      failIf (len m.description > L.AboutMaxCharacters)
        (fmtErrorf "Moderator description character length is greater than the max of " L.AboutMaxCharacters),
      failIf (len m.termsAndConditions > L.PolicyMaxCharacters)
        (fmtErrorf "Moderator terms and conditions character length is greater than the max of " L.PolicyMaxCharacters),
      failIf (m.languages.length > L.MaxListItems)
        (fmtErrorf "Moderator number of languages greater than the max of " L.MaxListItems),
      validateLanguages L m.languages,
      validateFee L m.fee]

/-- The block for one hash group (lines 355 to 377 for the avatar, 378 to 400
for the header): entered when the group is present and one of its variants is
non-empty; then every variant must decode. `FromB58String s` tells whether
`mh.FromB58String(s)` returns without error. -/
def validateImageHashes (FromB58String : String → Bool) : Option ImageHashes → Option String
  | none => none
  | some h =>
    if h.large != "" || h.medium != "" || h.small != "" || h.tiny != "" || h.original != "" then
      firstError [
        failIf (!FromB58String h.tiny) "Tiny image hashes must be multihashes",
        failIf (!FromB58String h.small) "Small image hashes must be multihashes",
        failIf (!FromB58String h.medium) "Medium image hashes must be multihashes",
        failIf (!FromB58String h.large) "Large image hashes must be multihashes",
        failIf (!FromB58String h.original) "Original image hashes must be multihashes"]
    else none

/-- The block guarded by `profile.Stats != nil` (lines 404 to 408). -/
def validateStats : Option Stats → Option String
  | none => none
  | some s =>
    failIf (s.averageRating.gt GoFloat32.five) (fmtErrorf "Average rating cannot be greater than " 5)

/-- `ValidateProfile` (lines 285 to 410): the checks in source order, the
first failing one giving the error; `none` is the `nil` return. -/
def ValidateProfile (L : Limits) (FromB58String : String → Bool) (profile : Profile) :
    Option String :=
  firstError [
    failIf (strings.Contains profile.handle "@") "Handle should not contain @",
    failIf (len profile.handle > L.WordMaxCharacters)
      (fmtErrorf "Handle character length is greater than the max of " L.WordMaxCharacters),
    failIf (len profile.name == 0) "Profile name not set",
    failIf (len profile.name > L.WordMaxCharacters)
      (fmtErrorf "Name character length is greater than the max of " L.WordMaxCharacters),
    failIf (len profile.location > L.WordMaxCharacters)
      (fmtErrorf "Location character length is greater than the max of " L.WordMaxCharacters),
    failIf (len profile.about > L.AboutMaxCharacters)
      (fmtErrorf "About character length is greater than the max of " L.AboutMaxCharacters),
    failIf (len profile.shortDescription > L.ShortDescriptionLength)
      (fmtErrorf "Short description character length is greater than the max of " L.ShortDescriptionLength),
    validateContactInfo L profile.contactInfo,
    validateModeratorInfo L profile.moderatorInfo,
    validateImageHashes FromB58String profile.avatarHashes,
    validateImageHashes FromB58String profile.headerHashes,
    failIf (len profile.bitcoinPubkey > 66)
      (fmtErrorf "Bitcoin public key character length is greater than the max of " 66),
    validateStats profile.stats]

/-! ## Pointer records, datastore and collaborators of FetchProfile -/

/-- Serialized binary data, the Go type `[]byte`. -/
abbrev Bytes := List UInt8

/-- An instant (`time.Time`), in nanoseconds since the Unix epoch. -/
abbrev Time := Int

/-- The method `t.Before(u)` of `time.Time`. -/
def Time.Before (t u : Time) : Bool := decide (t < u)

/-- The zero value `time.Time{}`: January 1 of year 1, 00:00 UTC. -/
def Time.zero : Time := -62135596800 * 1000000000

/-- The duration `time.Hour`, in nanoseconds. -/
def Hour : Int := 60 * (60 * (1000 * (1000 * 1000)))

/-- Key namespace of the cached pointer records (line 28). -/
def cachePrefix : String := "IPNSPERSISENTCACHE_"

/-- Lifetime added to a record at each stamping (line 29). -/
def CachedProfileTime : Int := Hour * 24 * 7

/-- The enum value `ipnspb.IpnsEntry_EOL`. -/
def IpnsEntry_EOL : Nat := 0

/-- Modelled from the spec: the pointer record `ipnspb.IpnsEntry` (generated
message of the content network library, not among the sources). `value` is
the content path and `validity` the expiry text; both are byte strings that
profile.go only uses through a conversion to `string`. `validityType` is an
optional enum field. -/
structure IpnsEntry where
  value : String := ""
  signature : Bytes := []
  validityType : Option Nat := none
  validity : String := ""
  sequence : Option Nat := none
  ttl : Option Nat := none
  deriving DecidableEq

/-- Getter `GetValidityType` of the generated message: the field when set,
the default enum value `EOL` otherwise. -/
def IpnsEntry.GetValidityType (e : IpnsEntry) : Nat :=
  match e.validityType with
  | some t => t
  | none => IpnsEntry_EOL

/-- A datastore key, as built by `ds.NewKey`. -/
abbrev Key := String

/-- State of the pointer-record datastore: `Get` on a key returns the stored
bytes, or fails when nothing is stored (`none`). -/
abbrev Datastore := Key → Option Bytes

/-- A decoded JSON value, the Go type `interface{}` as filled in by
`encoding/json` with `UseNumber`: numbers keep their text. -/
inductive JSONValue where
  | null
  | bool (b : Bool)
  | number (text : String)
  | string (s : String)
  | array (items : List JSONValue)
  | object (fields : List (String × JSONValue))

/-- A generic keyed structure, the Go type `map[string]interface{}`, as an
association list. -/
abbrev JSONObject := List (String × JSONValue)

/-- The two-result map read `v, ok := m[key]`; `none` is `ok = false`. -/
def JSONObject.get (m : JSONObject) (key : String) : Option JSONValue :=
  List.lookup key m

/-- Collaborators of profile.go that live outside the file. A Go result pair
`(value, err)` is a Lean pair whose second component is the error. -/
structure Env where
  /-- The length maxima of package core. -/
  limits : Limits
  /-- Whether `mh.FromB58String` decodes its argument without error. -/
  FromB58String : String → Bool
  /-- Identity resolution followed by a content fetch: `ipfs.ResolveThenCat`. -/
  ResolveThenCat : String → String × Option String
  /-- Content fetch at a known path: `ipfs.Cat`. -/
  Cat : String → String × Option String
  /-- Decoding of a profile document: `jsonpb.UnmarshalString` into a fresh
  `pb.Profile`; the profile is what the decoder has filled in. -/
  jsonpbUnmarshalString : String → Profile × Option String
  /-- Two-argument `path.Join` of the Go standard library. -/
  pathJoin : String → String → String
  /-- Key construction `ds.NewKey`. -/
  NewKey : String → Key
  /-- Decoding of a pointer record: `proto.Unmarshal` into a fresh entry. -/
  protoUnmarshal : Bytes → Except String IpnsEntry
  /-- Encoding of a pointer record: `proto.Marshal`. -/
  protoMarshal : IpnsEntry → Except String Bytes
  /-- Path validation `ipnspath.ParsePath`; the result is the parsed path. -/
  ParsePath : String → Except String String
  /-- Timestamp parsing `u.ParseRFC3339`; `none` when it returns an error. -/
  ParseRFC3339 : String → Option Time
  /-- Timestamp rendering `u.FormatRFC3339`. -/
  FormatRFC3339 : Time → String
  /-- Decoding of the stored document into generic values:
  `json.NewDecoder(file)` with `UseNumber`, then `Decode`. -/
  jsonDecode : String → Except String JSONValue
  /-- Error returned by `n.SetSelfAsModerator(nil)`, `none` when it succeeds. -/
  SetSelfAsModerator : Option String
  /-- Error returned by `n.RemoveSelfAsModerator()`, `none` when it succeeds. -/
  RemoveSelfAsModerator : Option String
  /-- The call `mergo.Map(&patch, &profile)`: the patch after the merge, or
  the error. -/
  mergoMap : JSONObject → JSONObject → Except String JSONObject
  /-- Serialization `json.Marshal` of the merged patch. -/
  jsonMarshal : JSONObject → String × Option String
  /-- Compressed serialization of the wallet master public key
  (`MasterPublicKey().ECPubKey()` then `SerializeCompressed()`), or the error
  of `ECPubKey`. -/
  ECPubKey : Except String Bytes
  /-- Currency code of the wallet: `n.Wallet.CurrencyCode()`. -/
  CurrencyCode : String
  /-- Upper-casing `strings.ToUpper` of the Go standard library. -/
  ToUpper : String → String
  /-- The local identity: `n.IpfsNode.Identity.Pretty()`. -/
  IdentityPretty : String
  /-- Serialization of a profile: `MarshalToString` of the `jsonpb.Marshaler`
  configured on lines 162 to 167. -/
  jsonpbMarshalToString : Profile → Except String String
  /-- Error of `os.Create` on the profile file, `none` when it succeeds. -/
  osCreate : Option String
  /-- Writing to the created file, `f.WriteString`: the text that reached the
  file and the error. -/
  WriteString : String → String × Option String
  /-- Number of listings: `n.GetListingCount()`. -/
  GetListingCount : Int
  /-- Number of followers: `n.Datastore.Followers().Count()`. -/
  FollowersCount : Int
  /-- Number of followed peers: `n.Datastore.Following().Count()`. -/
  FollowingCount : Int
  /-- Conversion `ptypes.TimestampProto` of an instant. -/
  TimestampProto : Time → Except String Int

/-- Calls that FetchProfile and its goroutines make on the datastore and on
the content network, in the order they are made. -/
inductive Event where
  | dsGet (key : Key)
  | dsPut (key : Key) (value : Bytes)
  | resolveThenCat (path : String)
  | cat (path : String)
  deriving DecidableEq

/-- Goroutines started by FetchProfile: the discarded full resolution of line
98 (`go fetch("")`), and the stamping closure of lines 118 to 136 together
with the variables `recordAvailable` and `val` it captures (`val = none` is
the nil interface left by a failed `Get`; FetchProfile never starts the
closure with `recordAvailable` true and `val` nil). -/
inductive Task where
  | prewarm
  | stamp (recordAvailable : Bool) (val : Option Bytes)
  deriving DecidableEq

/-- What a call of FetchProfile yields: the returned pair, the datastore and
network calls of the synchronous part, and the goroutines it started. -/
structure FetchResult where
  profile : Profile
  err : Option String
  events : List Event
  tasks : List Task

/-- The closure `fetch` of FetchProfile (lines 49 to 69): the returned pair
`(pro, err)` and the network call made. -/
def fetch (env : Env) (peerId : String) (rootHash : String) :
    (Profile × Option String) × List Event :=
  if rootHash == "" then
    let p := env.pathJoin peerId "profile"
    let r := env.ResolveThenCat p
    if r.2.isSome || len r.1 == 0 then
      (({}, r.2), [Event.resolveThenCat p])
    else
      (env.jsonpbUnmarshalString r.1, [Event.resolveThenCat p])
  else
    let p := env.pathJoin rootHash "profile"
    let r := env.Cat p
    if r.2.isSome || len r.1 == 0 then
      (({}, r.2), [Event.cat p])
    else
      (env.jsonpbUnmarshalString r.1, [Event.cat p])

/-- `checkEOL` (lines 140 to 149). -/
def checkEOL (env : Env) (e : IpnsEntry) : Time × Bool :=
  if e.GetValidityType == IpnsEntry_EOL then
    match env.ParseRFC3339 e.validity with
    | none => (Time.zero, false)
    | some eol => (eol, true)
  else
    (Time.zero, false)

/-- Lines 113 to 137 of FetchProfile: validation of the fetched profile, then
the start of the stamping goroutine and the successful return. A validation
error returns before the goroutine is started. -/
def validateAndStamp (env : Env) (pro : Profile) (recordAvailable : Bool) (val : Option Bytes)
    (events : List Event) (tasks : List Task) : FetchResult :=
  match ValidateProfile env.limits env.FromB58String pro with
  | some e => ⟨{}, some e, events, tasks⟩
  | none => ⟨pro, none, events, tasks ++ [Task.stamp recordAvailable val]⟩

/-- `FetchProfile` (lines 48 to 138), synchronous part. `d` is the datastore
and `now` the clock reading of line 93. -/
def FetchProfile (env : Env) (d : Datastore) (now : Time) (peerId : String) (useCache : Bool) :
    FetchResult :=
  let key := env.NewKey (cachePrefix ++ peerId)
  if useCache then
    match d key with
    | none =>
      -- No record in datastore
      let r := fetch env peerId ""
      match r.1.2 with
      | some e => ⟨{}, some e, Event.dsGet key :: r.2, []⟩
      | none => validateAndStamp env r.1.1 false none (Event.dsGet key :: r.2) []
    | some val =>
      -- Record available
      match env.protoUnmarshal val with
      | .error e => ⟨{}, some e, [Event.dsGet key], []⟩
      | .ok entry =>
        match env.ParsePath entry.value with
        | .error e => ⟨{}, some e, [Event.dsGet key], []⟩
        | .ok p =>
          let eol := checkEOL env entry
          if eol.2 && eol.1.Before now then
            -- Too old, fetch new profile
            let r := fetch env peerId ""
            match r.1.2 with
            | some e => ⟨{}, some e, Event.dsGet key :: r.2, []⟩
            | none => validateAndStamp env r.1.1 true (some val) (Event.dsGet key :: r.2) []
          else
            -- Relatively new: direct query, and a full resolution in a goroutine
            let r := fetch env peerId (strings.TrimPrefix p "/ipfs/")
            match r.1.2 with
            | some e => ⟨{}, some e, Event.dsGet key :: r.2, [Task.prewarm]⟩
            | none =>
              validateAndStamp env r.1.1 true (some val) (Event.dsGet key :: r.2) [Task.prewarm]
  else
    let r := fetch env peerId ""
    match r.1.2 with
    | some e => ⟨{}, some e, r.2, []⟩
    | none => validateAndStamp env r.1.1 false none r.2 []

/-- Body of a goroutine started by FetchProfile for `peerId`, run when the
datastore is `d` and the clock reads `now`: the datastore it leaves and the
calls it makes. The stamping closure (lines 118 to 136) reads the record again
only when `recordAvailable` is false, and returns silently on every error. -/
def runTask (env : Env) (peerId : String) (t : Task) (d : Datastore) (now : Time) :
    Datastore × List Event :=
  match t with
  | Task.prewarm => (d, (fetch env peerId "").2)
  | Task.stamp recordAvailable val =>
    let key := env.NewKey (cachePrefix ++ peerId)
    let got : Option Bytes × List Event :=
      if !recordAvailable then (d key, [Event.dsGet key]) else (val, [])
    match got.1 with
    | none => (d, got.2)
    | some v =>
      match env.protoUnmarshal v with
      | .error _ => (d, got.2)
      | .ok entry =>
        let stamped : IpnsEntry :=
          { entry with validity := env.FormatRFC3339 (now + CachedProfileTime) }
        match env.protoMarshal stamped with
        | .error _ => (d, got.2)
        | .ok v => (Function.update d key (some v), got.2 ++ [Event.dsPut key v])

/-- Runs goroutines one after the other, each at its own clock reading, from
datastore `d`: the final datastore and all calls made. -/
def runTasks (env : Env) (peerId : String) : List (Task × Time) → Datastore → Datastore × List Event
  | [], d => (d, [])
  | (t, now) :: rest, d =>
    let r := runTask env peerId t d now
    let r' := runTasks env peerId rest r.1
    (r'.1, r.2 ++ r'.2)

/-! ## The local profile file: GetProfile, UpdateProfile, PatchProfile -/

/-- The error value `ErrorProfileNotFound` (line 32). -/
def ErrorProfileNotFound : String := "Profile not found"

/-- `GetProfile` (lines 34 to 46). `stored` is the content of the profile
file, `none` when it cannot be opened. -/
def GetProfile (env : Env) (stored : Option String) : Profile × Option String :=
  match stored with
  | none => ({}, some ErrorProfileNotFound)
  | some f => env.jsonpbUnmarshalString f

/-- Lower-case hexadecimal digit of a number below 16. -/
def hexDigit (n : Nat) : Char :=
  if n < 10 then Char.ofNat (48 + n) else Char.ofNat (87 + n)

/-- Hexadecimal rendering `hex.EncodeToString`: two digits per byte. -/
def hex.EncodeToString (b : Bytes) : String :=
  String.mk (b.flatMap fun x => [hexDigit (x.toNat / 16), hexDigit (x.toNat % 16)])

/-- Side effects of PatchProfile and UpdateProfile, in the order they are
made. -/
inductive LocalEvent where
  | setSelfAsModerator
  | removeSelfAsModerator
  | mergoMap
  | create
  | writeString (out : String)
  deriving DecidableEq

/-- What a call of UpdateProfile yields: the returned error, the profile
behind the pointer after the call, the content of the profile file after the
call, and the side effects made. -/
structure UpdateResult where
  err : Option String
  profile : Profile
  stored : Option String
  events : List LocalEvent

/-- `UpdateProfile` (lines 151 to 186). `stored` is the content of the
profile file before the call. -/
def UpdateProfile (env : Env) (stored : Option String) (profile : Profile) : UpdateResult :=
  match env.ECPubKey with
  | .error e => ⟨some e, profile, stored, []⟩
  | .ok mPubkey =>
    match ValidateProfile env.limits env.FromB58String profile with
    | some e => ⟨some e, profile, stored, []⟩
    | none =>
      let p1 : Profile := { profile with bitcoinPubkey := hex.EncodeToString mPubkey }
      let p2 : Profile :=
        match p1.moderatorInfo with
        | some m =>
          { p1 with moderatorInfo := some { m with acceptedCurrency := env.ToUpper env.CurrencyCode } }
        | none => p1
      let p3 : Profile := { p2 with peerID := env.IdentityPretty }
      match env.jsonpbMarshalToString p3 with
      | .error e => ⟨some e, p3, stored, []⟩
      | .ok out =>
        match env.osCreate with
        | some e => ⟨some e, p3, stored, [LocalEvent.create]⟩
        | none =>
          let w := env.WriteString out
          match w.2 with
          | some e => ⟨some e, p3, some w.1, [LocalEvent.create, LocalEvent.writeString out]⟩
          | none => ⟨none, p3, some w.1, [LocalEvent.create, LocalEvent.writeString out]⟩

/-- How a call ends: it returns its error result, or it panics. -/
inductive Outcome where
  | returned (err : Option String)
  | panicked
  deriving DecidableEq

/-- What a call of PatchProfile yields: how it ends, the content of the
profile file after the call, and the side effects made. -/
structure PatchResult where
  outcome : Outcome
  stored : Option String
  events : List LocalEvent

/-- Lines 228 to 243 of PatchProfile: the recursive merge of the stored
document into the patch, then UpdateProfile on the decoded result. `events`
are the side effects made so far. -/
def mergeAndUpdate (env : Env) (stored : Option String) (patch profile : JSONObject)
    (events : List LocalEvent) : PatchResult :=
  match env.mergoMap patch profile with
  | .error e => ⟨Outcome.returned (some e), stored, events ++ [LocalEvent.mergoMap]⟩
  | .ok merged =>
    let newProfile := (env.jsonMarshal merged).1
    let p := env.jsonpbUnmarshalString newProfile
    match p.2 with
    | some e => ⟨Outcome.returned (some e), stored, events ++ [LocalEvent.mergoMap]⟩
    | none =>
      let r := UpdateProfile env stored p.1
      ⟨Outcome.returned r.err, r.stored, events ++ [LocalEvent.mergoMap] ++ r.events⟩

/-- `PatchProfile` (lines 188 to 243). `stored` is the content of the profile
file, `none` when it cannot be opened; the error of `os.Open` is `openErr`. -/
def PatchProfile (env : Env) (stored : Option String) (openErr : String) (patch : JSONObject) :
    PatchResult :=
  match stored with
  | none => ⟨Outcome.returned (some openErr), stored, []⟩
  | some file =>
    match env.jsonDecode file with
    | .error e => ⟨Outcome.returned (some e), stored, []⟩
    | .ok (JSONValue.object profile) =>
      match JSONObject.get patch "moderator", JSONObject.get profile "moderator" with
      | some patchMod, some storedMod =>
        match patchMod with
        | JSONValue.bool patchBool =>
          match storedMod with
          | JSONValue.bool storedBool =>
            if patchBool && patchBool != storedBool then
              match env.SetSelfAsModerator with
              | some e => ⟨Outcome.returned (some e), stored, [LocalEvent.setSelfAsModerator]⟩
              | none => mergeAndUpdate env stored patch profile [LocalEvent.setSelfAsModerator]
            else if !patchBool && patchBool != storedBool then
              match env.RemoveSelfAsModerator with
              | some e => ⟨Outcome.returned (some e), stored, [LocalEvent.removeSelfAsModerator]⟩
              | none => mergeAndUpdate env stored patch profile [LocalEvent.removeSelfAsModerator]
            else mergeAndUpdate env stored patch profile []
          | _ => ⟨Outcome.returned (some "Invalid moderator type"), stored, []⟩
        | _ => ⟨Outcome.returned (some "Invalid moderator type"), stored, []⟩
      | _, _ => mergeAndUpdate env stored patch profile []
    | .ok _ =>
      -- the type assertion of line 204 fails
      ⟨Outcome.panicked, stored, []⟩

/-- Conversion `uint32(x)` of a Go `int`: reduction modulo `2 ^ 32`. -/
def uint32 (x : Int) : Nat := (x % 4294967296).toNat

/-- `appendCountsToProfile` (lines 245 to 259); `now` is the clock reading. -/
def appendCountsToProfile (env : Env) (now : Time) (profile : Profile) : Except String Profile :=
  let stats : Stats :=
    match profile.stats with
    | none => {}
    | some s => s
  let stats : Stats :=
    { stats with
      listingCount := uint32 env.GetListingCount
      followerCount := uint32 env.FollowersCount
      followingCount := uint32 env.FollowingCount }
  match env.TimestampProto now with
  | .error e => .error e
  | .ok ts => .ok { profile with stats := some stats, lastModified := some ts }

/-- `updateProfileCounts` (lines 261 to 283). `stored` is the content of the
profile file (`none` when `os.Stat` reports that it does not exist) and
`readErr` the error of `ioutil.ReadFile`, `none` when the read succeeds. -/
def updateProfileCounts (env : Env) (now : Time) (stored : Option String)
    (readErr : Option String) : UpdateResult :=
  match stored with
  | none => ⟨none, {}, stored, []⟩
  | some file =>
    match readErr with
    | some e => ⟨some e, {}, stored, []⟩
    | none =>
      let p := env.jsonpbUnmarshalString file
      match p.2 with
      | some e => ⟨some e, p.1, stored, []⟩
      | none =>
        match appendCountsToProfile env now p.1 with
        | .error e => ⟨some e, p.1, stored, []⟩
        | .ok profile => UpdateProfile env stored profile

/-! ## Stated constraints on a profile -/

/-- All five variants of a hash group are the empty string. -/
def ImageHashes.AllEmpty (h : ImageHashes) : Prop :=
  h.tiny = "" ∧ h.small = "" ∧ h.medium = "" ∧ h.large = "" ∧ h.original = ""

/-- All five variants of a hash group decode as base-58 multihashes. -/
def ImageHashes.AllDecode (FromB58String : String → Bool) (h : ImageHashes) : Prop :=
  FromB58String h.tiny = true ∧ FromB58String h.small = true ∧ FromB58String h.medium = true ∧
    FromB58String h.large = true ∧ FromB58String h.original = true

/-- A hash group is absent, has all five variants empty, or has all five
variants decoding. -/
def HashGroupOk (FromB58String : String → Bool) : Option ImageHashes → Prop
  | none => True
  | some h => h.AllEmpty ∨ h.AllDecode FromB58String

/-- The stated caps on the contact information; nothing when it is absent. -/
def ContactInfoOk (L : Limits) : Option ContactInfo → Prop
  | none => True
  | some c =>
    len c.website ≤ L.URLMaxCharacters ∧ len c.email ≤ L.SentenceMaxCharacters ∧
    len c.phoneNumber ≤ L.WordMaxCharacters ∧ c.social.length ≤ L.MaxListItems ∧
    ∀ s ∈ c.social, len s.username ≤ L.WordMaxCharacters ∧ len s.type ≤ L.WordMaxCharacters ∧
      len s.proof ≤ L.URLMaxCharacters

/-- The stated cap on the currency code of the fixed fee; nothing when the
fee or its fixed part is absent. -/
def FeeOk (L : Limits) : Option ModeratorFee → Prop
  | none => True
  | some fee =>
    match fee.fixedFee with
    | none => True
    | some fixed => len fixed.currencyCode ≤ L.WordMaxCharacters

/-- The stated caps on the moderator information; nothing when it is absent. -/
def ModeratorInfoOk (L : Limits) : Option ModeratorInfo → Prop
  | none => True
  | some m =>
    len m.description ≤ L.AboutMaxCharacters ∧ len m.termsAndConditions ≤ L.PolicyMaxCharacters ∧
    m.languages.length ≤ L.MaxListItems ∧ (∀ l ∈ m.languages, len l ≤ L.WordMaxCharacters) ∧
    FeeOk L m.fee

/-- Every stated constraint on a profile except the one on the rating. -/
def ConstraintsExceptRating (L : Limits) (FromB58String : String → Bool) (p : Profile) : Prop :=
  ¬ ('@' ∈ p.handle.data) ∧ p.name ≠ "" ∧
  len p.handle ≤ L.WordMaxCharacters ∧ len p.name ≤ L.WordMaxCharacters ∧
  len p.location ≤ L.WordMaxCharacters ∧ len p.about ≤ L.AboutMaxCharacters ∧
  len p.shortDescription ≤ L.ShortDescriptionLength ∧
  ContactInfoOk L p.contactInfo ∧ ModeratorInfoOk L p.moderatorInfo ∧
  HashGroupOk FromB58String p.avatarHashes ∧ HashGroupOk FromB58String p.headerHashes ∧
  len p.bitcoinPubkey ≤ 66

/-- The constraints as stated: the rating, when stats is present, is at most
5 (a number that is less than or equal to 5). -/
def StatedConstraints (L : Limits) (FromB58String : String → Bool) (p : Profile) : Prop :=
  ConstraintsExceptRating L FromB58String p ∧
  ∀ s, p.stats = some s → s.averageRating.le GoFloat32.five = true

/-- The constraints as enforced: the rating, when stats is present, is not
greater than 5, which holds for every number up to 5 and for NaN. -/
def EnforcedConstraints (L : Limits) (FromB58String : String → Bool) (p : Profile) : Prop :=
  ConstraintsExceptRating L FromB58String p ∧
  ∀ s, p.stats = some s → (s.averageRating.isNaN = true ∨ s.averageRating.le GoFloat32.five = true)

/-! ## Sample data -/

/-- The maxima of the upstream package, as sample values. -/
def sampleLimits : Limits :=
  { WordMaxCharacters := 40, SentenceMaxCharacters := 70, ShortDescriptionLength := 160,
    AboutMaxCharacters := 10000, PolicyMaxCharacters := 10000, URLMaxCharacters := 2000,
    MaxListItems := 30 }

/-- A sample decoder: the strings that start with `Qm` decode. -/
def sampleFromB58String (s : String) : Bool := decide ("Qm".data <+: s.data)

/-- A profile with a name and nothing else. -/
def namedProfile : Profile := { name := "alice" }

/-- A named profile whose rating is NaN. -/
def nanRatedProfile : Profile :=
  { name := "alice", stats := some { averageRating := GoFloat32.nan } }

/-- The condition under which a pointer record is stale at time `now`, as
stated: its validity type is EOL, its validity parses as a timestamp, and
that timestamp is strictly before `now`. -/
def Stale (env : Env) (e : IpnsEntry) (now : Time) : Prop :=
  e.GetValidityType = IpnsEntry_EOL ∧ ∃ eol, env.ParseRFC3339 e.validity = some eol ∧ eol < now

/-- The datastore key of the cached pointer record of a peer. -/
def recordKey (env : Env) (peerId : String) : Key := env.NewKey (cachePrefix ++ peerId)

/-- A sample record codec, encoding: the characters of the content path as
bytes, a zero byte, the characters of the validity as bytes. -/
def sampleMarshal (e : IpnsEntry) : Except String Bytes :=
  .ok (e.value.data.map (fun c => UInt8.ofNat c.toNat) ++ [0] ++
    e.validity.data.map (fun c => UInt8.ofNat c.toNat))

/-- A sample record codec, decoding: fails when there is no zero byte. -/
def sampleUnmarshal (b : Bytes) : Except String IpnsEntry :=
  if (0 : UInt8) ∈ b then
    .ok { value := String.mk ((b.takeWhile (· != 0)).map (fun x => Char.ofNat x.toNat)),
          validity := String.mk (((b.dropWhile (· != 0)).drop 1).map (fun x => Char.ofNat x.toNat)) }
  else .error "proto: required field not set"

/-- A sample timestamp syntax: the decimal digits of the nanosecond count. -/
def sampleParseTime (s : String) : Option Time :=
  if s.data ≠ [] ∧ s.data.all Char.isDigit then
    some (Int.ofNat (s.data.foldl (fun acc c => acc * 10 + (c.toNat - 48)) 0))
  else none

/-- A sample path check: the paths that start with `/ipfs/Qm` are valid. -/
def sampleParsePath (s : String) : Except String String :=
  if "/ipfs/Qm".data <+: s.data then .ok s else .error "invalid path"

/-- The one document of the sample content network. -/
def sampleDocument : String := "name: alice"

/-- A sample node: the content network serves `sampleDocument`, which decodes
to `namedProfile`, by resolution of `QmPeer/profile` and at `QmOld/profile`;
the wallet key is 33 bytes; every local operation succeeds. -/
def sampleEnv : Env :=
  { limits := sampleLimits
    FromB58String := sampleFromB58String
    ResolveThenCat := fun p => if p = "QmPeer/profile" then (sampleDocument, none) else ("", some "could not resolve name")
    Cat := fun p => if p = "QmOld/profile" then (sampleDocument, none) else ("", some "not found")
    jsonpbUnmarshalString := fun s => if s = sampleDocument then (namedProfile, none) else ({}, some "invalid document")
    pathJoin := fun a b => a ++ "/" ++ b
    NewKey := fun s => "/" ++ s
    protoUnmarshal := sampleUnmarshal
    protoMarshal := sampleMarshal
    ParsePath := sampleParsePath
    ParseRFC3339 := sampleParseTime
    FormatRFC3339 := fun t => toString t
    jsonDecode := fun _ => .ok (JSONValue.object [("name", JSONValue.string "alice"), ("moderator", JSONValue.bool false)])
    SetSelfAsModerator := none
    RemoveSelfAsModerator := none
    mergoMap := fun patch profile => .ok (patch ++ profile.filter (fun kv => (List.lookup kv.1 patch).isNone))
    jsonMarshal := fun _ => (sampleDocument, none)
    ECPubKey := .ok (List.replicate 33 2)
    CurrencyCode := "btc"
    ToUpper := String.toUpper
    IdentityPretty := "QmSelf"
    jsonpbMarshalToString := fun p => .ok ("name: " ++ p.name)
    osCreate := none
    WriteString := fun out => (out, none)
    GetListingCount := 3
    FollowersCount := 2
    FollowingCount := 1
    TimestampProto := fun t => .ok t }

/-- The key of the sample peer `QmPeer`. -/
def sampleKey : Key := "/IPNSPERSISENTCACHE_QmPeer"

/-- A record for the content path `/ipfs/QmOld` with validity `500`. -/
def oldRecord : IpnsEntry := { value := "/ipfs/QmOld", validity := "500" }

/-- The bytes of `oldRecord` under the sample codec. -/
def oldRecordBytes : Bytes :=
  [47, 105, 112, 102, 115, 47, 81, 109, 79, 108, 100, 0, 53, 48, 48]

/-- A record for the content path `/ipfs/QmNew` with validity `900`. -/
def newRecord : IpnsEntry := { value := "/ipfs/QmNew", validity := "900" }

/-- The bytes of `newRecord` under the sample codec. -/
def newRecordBytes : Bytes :=
  [47, 105, 112, 102, 115, 47, 81, 109, 78, 101, 119, 0, 57, 48, 48]

/-- The datastore with no record at all. -/
def emptyStore : Datastore := fun _ => none

/-- The datastore that holds `oldRecord` for the sample peer. -/
def oldStore : Datastore := fun k => if k = sampleKey then some oldRecordBytes else none

/-- The datastore that holds `newRecord` for the sample peer. -/
def newStore : Datastore := fun k => if k = sampleKey then some newRecordBytes else none

/-- Whether a side effect is a call of the moderator-registration
collaborator (`SetSelfAsModerator` or `RemoveSelfAsModerator`). -/
def LocalEvent.isModeratorCall : LocalEvent → Bool
  | LocalEvent.setSelfAsModerator => true
  | LocalEvent.removeSelfAsModerator => true
  | _ => false

/-- The stored document of the sample node, as a file. -/
def sampleFile : Option String := some "name: alice, moderator: false"

/-! ## The merge of a stored document into a patch -/

/-- The map write `m[key] = v`: the value under an existing key is replaced,
a new key is added. -/
def JSONObject.set : JSONObject → String → JSONValue → JSONObject
  | [], k, v => [(k, v)]
  | (k', v') :: rest, k, v =>
    if k' = k then (k', v) :: rest else (k', v') :: JSONObject.set rest k v

mutual
/-- Modelled from the spec: the merge of one stored value `src` into the patch
value `dst` under the same key, as done by `mergo.Map` (library code that is
not among the sources). The patch value wins; when both are nested objects
they are merged by `mergeObject`. -/
def mergeValue (dst : JSONValue) : JSONValue → JSONValue
  | JSONValue.object src =>
    match dst with
    | JSONValue.object d => JSONValue.object (mergeObject d src)
    | _ => dst
  | _ => dst
/-- Modelled from the spec: the deep merge `mergo.Map(&patch, &profile)`
(library code that is not among the sources) of the stored document `src` into
the patch `dst`: for every key of the stored document, when the key is absent
from the patch the stored value is copied into the patch, and when it is
present the patch value is kept, nested objects being merged recursively. -/
def mergeObject (dst : JSONObject) : List (String × JSONValue) → JSONObject
  | [] => dst
  | (k, v) :: rest =>
    mergeObject
      (match JSONObject.get dst k with
        | none => JSONObject.set dst k v
        | some dv => JSONObject.set dst k (mergeValue dv v)) rest
end

/-- A sample node for patches: the stored document has a name `Old` and a
location `Y`; the merge is `mergeObject`; the serialization of a merged
document shows its name and location, and decodes to a profile with them. -/
def mergeEnv : Env :=
  { sampleEnv with
    jsonDecode := fun _ =>
      .ok (JSONValue.object
        [("name", JSONValue.string "Old"), ("location", JSONValue.string "Y")])
    mergoMap := fun patch profile => .ok (mergeObject patch profile)
    jsonMarshal := fun m =>
      match JSONObject.get m "name", JSONObject.get m "location" with
      | some (JSONValue.string n), some (JSONValue.string l) =>
        ("name: " ++ n ++ ", location: " ++ l, none)
      | _, _ => ("", none)
    jsonpbUnmarshalString := fun s =>
      if s = "name: X, location: Y" then ({ name := "X", location := "Y" }, none)
      else ({}, some "invalid document") }

/-- The sample node with a moderator registration that fails. -/
def failingModeratorEnv : Env :=
  { sampleEnv with SetSelfAsModerator := some "moderator registration failed" }

/-! ## Stated effect of UpdateProfile -/

/-- The profile as stated for a write with wallet key `mPubkey`: the input
with `bitcoinPubkey` replaced by the hexadecimal rendering of the key, `peerID`
replaced by the local identity and, only when `moderatorInfo` is set, its
`acceptedCurrency` replaced by the upper-cased wallet currency code; every
other field is that of the input. -/
def stamped (env : Env) (mPubkey : Bytes) (profile : Profile) : Profile :=
  { profile with
    bitcoinPubkey := hex.EncodeToString mPubkey
    peerID := env.IdentityPretty
    moderatorInfo := profile.moderatorInfo.map fun m =>
      { m with acceptedCurrency := env.ToUpper env.CurrencyCode } }

/-- The sample node with a profile decoder that inverts its serializer on the
stamped sample profile. -/
def roundTripEnv : Env :=
  { sampleEnv with
    jsonpbUnmarshalString := fun s =>
      if s = "name: alice" then (stamped sampleEnv (List.replicate 33 2) namedProfile, none)
      else ({}, some "invalid document") }

/-- A named profile whose own public key text has 67 bytes. -/
def longKeyProfile : Profile :=
  { name := "alice", bitcoinPubkey := String.mk (List.replicate 67 'a') }

/-- The sample node with a content network that returns zero bytes and no
error. -/
def silentEnv : Env :=
  { sampleEnv with ResolveThenCat := fun _ => ("", none), Cat := fun _ => ("", none) }

/-- The sample node with a profile decoder that yields a profile without a
name, which ValidateProfile refuses. -/
def namelessEnv : Env :=
  { sampleEnv with jsonpbUnmarshalString := fun _ => ({}, none) }

/-- The datastore that holds, for the sample peer, bytes that are not a
record. -/
def garbageStore : Datastore := fun k => if k = sampleKey then some [1, 2, 3] else none

/-- A profile with an empty name and a location of 41 bytes. -/
def namelessLongLocation : Profile :=
  { name := "", location := String.mk (List.replicate 41 'a') }

/-- The checks on the handle pass: no `@` and the length cap. -/
def HandleOk (L : Limits) (p : Profile) : Prop :=
  ¬ ('@' ∈ p.handle.data) ∧ len p.handle ≤ L.WordMaxCharacters

/-- The checks on the top-level texts pass: the handle checks, a non-empty
name, and the caps on name, location, about and short description. -/
def TextsOk (L : Limits) (p : Profile) : Prop :=
  HandleOk L p ∧ p.name ≠ "" ∧ len p.name ≤ L.WordMaxCharacters ∧
  len p.location ≤ L.WordMaxCharacters ∧ len p.about ≤ L.AboutMaxCharacters ∧
  len p.shortDescription ≤ L.ShortDescriptionLength

/-- A named profile with one social account whose proof has 2001 bytes, one
more than the sample `URLMaxCharacters`. -/
def longProofProfile : Profile :=
  { name := "alice",
    contactInfo := some
      { social := [{ type := "web", username := "alice",
                     proof := String.mk (List.replicate 2001 'a') }] } }

/-- A name of 40 characters of two bytes each. -/
def accentedName : String := String.mk (List.replicate 40 'é')

/-! ## The API configuration (repo/config.go) -/

/-- `APIConfig` (config.go, lines 18 to 29). `CORS` is a pointer and
`HTTPHeaders` a map, so both may be nil (`none`). -/
structure APIConfig where
  Authenticated : Bool
  AllowedIPs : List String
  Username : String
  Password : String
  CORS : Option String
  Enabled : Bool
  HTTPHeaders : Option JSONObject
  SSL : Bool
  SSLCert : String
  SSLKey : String

/-- The error value `MalformedConfigError` (config.go, line 49). -/
def MalformedConfigError : String := "Config file is malformed"

/-- The type assertion `v.(map[string]interface{})`; `none` is `ok = false`. -/
def JSONValue.asObject : JSONValue → Option JSONObject
  | JSONValue.object m => some m
  | _ => none

/-- The type assertion `v.(bool)`; `none` is `ok = false`. -/
def JSONValue.asBool : JSONValue → Option Bool
  | JSONValue.bool b => some b
  | _ => none

/-- The type assertion `v.(string)`; `none` is `ok = false`. -/
def JSONValue.asString : JSONValue → Option String
  | JSONValue.string s => some s
  | _ => none

/-- The type assertion `v.([]interface{})`; `none` is `ok = false`. -/
def JSONValue.asArray : JSONValue → Option (List JSONValue)
  | JSONValue.array items => some items
  | _ => none

/-- One guard `if !ok { return nil, MalformedConfigError }` of GetAPIConfig,
followed by the rest of the function: `v = none` is `ok = false`. -/
def orMalformed {α : Type} (v : Option α) (rest : α → Except String APIConfig) :
    Except String APIConfig :=
  match v with
  | none => .error MalformedConfigError
  | some a => rest a

/-- The guard `if !ok` on a flag that an earlier statement has set. -/
def okGuard (ok : Bool) : Option Unit := if ok then some () else none

/-- The loop of config.go, lines 105 to 112: every element must be a string
and is appended to `allowedIPstrings`; `none` is the error return. -/
def appendAllowedIPs (allowedIPstrings : List String) : List JSONValue → Option (List String)
  | [] => some allowedIPstrings
  | ip :: rest =>
    match ip.asString with
    | none => none
    | some ipStr => appendAllowedIPs (allowedIPstrings ++ [ipStr]) rest

/-- The block of config.go, lines 70 to 79: no headers for an absent or null
`HTTPHeaders`, otherwise the value must be an object; the outer `none` is the
error return. -/
def headersOf (api : JSONObject) : Option (Option JSONObject) :=
  match JSONObject.get api "HTTPHeaders" with
  | none => some none
  | some JSONValue.null => some none
  | some h => h.asObject.map some

/-- The block of config.go, lines 132 to 142: no CORS for an absent or null
`CORS`, otherwise the value must be a string; the outer `none` is the error
return. -/
def corsOf (api : JSONObject) : Option (Option String) :=
  match JSONObject.get api "CORS" with
  | none => some none
  | some JSONValue.null => some none
  | some c => c.asString.map some

/-- `GetAPIConfig` (config.go, lines 51 to 183). `jsonUnmarshal` is
`json.Unmarshal` into an empty interface: the value it has stored (nil, that
is `null`, when it fails) and its error, which line 53 ignores. -/
def GetAPIConfig (jsonUnmarshal : String → JSONValue × Option String) (cfgBytes : String) :
    Except String APIConfig :=
  let cfgIface := (jsonUnmarshal cfgBytes).1
  orMalformed cfgIface.asObject fun cfg =>
  orMalformed (JSONObject.get cfg "JSON-API") fun apiIface =>
  orMalformed apiIface.asObject fun api =>
  orMalformed (headersOf api) fun headers =>
  orMalformed (JSONObject.get api "Enabled") fun enabled =>
  orMalformed enabled.asBool fun enabledBool =>
  -- line 89 reads the map without `ok`: nil when the key is absent
  let authenticated := (JSONObject.get api "Authenticated").getD JSONValue.null
  -- line 90 tests the `ok` left by the assertion of line 85
  orMalformed (okGuard enabled.asBool.isSome) fun _ =>
  orMalformed authenticated.asBool fun authenticatedBool =>
  orMalformed (JSONObject.get api "AllowedIPs") fun allowedIPs =>
  orMalformed allowedIPs.asArray fun allowedIPsIface =>
  orMalformed (appendAllowedIPs [] allowedIPsIface) fun allowedIPstrings =>
  orMalformed (JSONObject.get api "Username") fun username =>
  orMalformed username.asString fun usernameStr =>
  orMalformed (JSONObject.get api "Password") fun password =>
  orMalformed password.asString fun passwordStr =>
  orMalformed (corsOf api) fun cors =>
  orMalformed (JSONObject.get api "SSL") fun sslEnabled =>
  orMalformed sslEnabled.asBool fun sslEnabledBool =>
  orMalformed (JSONObject.get api "SSLCert") fun certFile =>
  orMalformed certFile.asString fun certFileStr =>
  orMalformed (JSONObject.get api "SSLKey") fun keyFile =>
  orMalformed keyFile.asString fun keyFileStr =>
  .ok
    { Authenticated := authenticatedBool
      AllowedIPs := allowedIPstrings
      Username := usernameStr
      Password := passwordStr
      CORS := cors
      Enabled := enabledBool
      HTTPHeaders := headers
      SSL := sslEnabledBool
      SSLCert := certFileStr
      SSLKey := keyFileStr }

/-- The stated relation between the `HTTPHeaders` entry of the configuration
and the result field: nil when the entry is absent or null, the object when it
is an object. -/
def HeadersMatch (v : Option JSONValue) (h : Option JSONObject) : Prop :=
  ((v = none ∨ v = some JSONValue.null) ∧ h = none) ∨
    ∃ m, v = some (JSONValue.object m) ∧ h = some m

/-- The stated relation between the `CORS` entry of the configuration and the
result field: nil when the entry is absent or null, the string when it is a
string. -/
def CorsMatch (v : Option JSONValue) (c : Option String) : Prop :=
  ((v = none ∨ v = some JSONValue.null) ∧ c = none) ∨
    ∃ s, v = some (JSONValue.string s) ∧ c = some s

/-- The stated condition of success of GetAPIConfig, with the result `c`: the
decoded configuration is an object with an object under `JSON-API` in which
`Enabled`, `Authenticated` and `SSL` are booleans, `Username`, `Password`,
`SSLCert` and `SSLKey` are strings, `AllowedIPs` is a list of strings,
`HTTPHeaders` is absent, null or an object and `CORS` is absent, null or a
string, each field of `c` being the corresponding value. -/
def DescribesAPIConfig (cfgIface : JSONValue) (c : APIConfig) : Prop :=
  ∃ cfg api, cfgIface = JSONValue.object cfg ∧
    JSONObject.get cfg "JSON-API" = some (JSONValue.object api) ∧
    JSONObject.get api "Enabled" = some (JSONValue.bool c.Enabled) ∧
    JSONObject.get api "Authenticated" = some (JSONValue.bool c.Authenticated) ∧
    JSONObject.get api "SSL" = some (JSONValue.bool c.SSL) ∧
    JSONObject.get api "Username" = some (JSONValue.string c.Username) ∧
    JSONObject.get api "Password" = some (JSONValue.string c.Password) ∧
    JSONObject.get api "SSLCert" = some (JSONValue.string c.SSLCert) ∧
    JSONObject.get api "SSLKey" = some (JSONValue.string c.SSLKey) ∧
    JSONObject.get api "AllowedIPs" =
      some (JSONValue.array (c.AllowedIPs.map JSONValue.string)) ∧
    HeadersMatch (JSONObject.get api "HTTPHeaders") c.HTTPHeaders ∧
    CorsMatch (JSONObject.get api "CORS") c.CORS

/-- A sample configuration: authenticated API for one address, no headers, a
null CORS entry. -/
def sampleConfig : JSONValue :=
  JSONValue.object
    [("JSON-API", JSONValue.object
      [("Enabled", JSONValue.bool true), ("Authenticated", JSONValue.bool true),
        ("AllowedIPs", JSONValue.array [JSONValue.string "127.0.0.1"]),
        ("Username", JSONValue.string "admin"), ("Password", JSONValue.string "secret"),
        ("CORS", JSONValue.null), ("SSL", JSONValue.bool false),
        ("SSLCert", JSONValue.string ""), ("SSLKey", JSONValue.string "")])]

/-- The sample configuration without its `Authenticated` entry. -/
def sampleConfigWithoutAuthenticated : JSONValue :=
  JSONValue.object
    [("JSON-API", JSONValue.object
      [("Enabled", JSONValue.bool true),
        ("AllowedIPs", JSONValue.array [JSONValue.string "127.0.0.1"]),
        ("Username", JSONValue.string "admin"), ("Password", JSONValue.string "secret"),
        ("CORS", JSONValue.null), ("SSL", JSONValue.bool false),
        ("SSLCert", JSONValue.string ""), ("SSLKey", JSONValue.string "")])]

/-! ## Theorems -/

theorem failIf_eq_none (c : Bool) (e : String) : failIf c e = none ↔ c = false := by
  cases c <;> simp [failIf]

theorem firstError_eq_none (l : List (Option String)) :
    firstError l = none ↔ ∀ x ∈ l, x = none := by
  induction l with
  | nil => simp [firstError]
  | cons a rest ih =>
    cases a with
    | none => simp [firstError, ih]
    | some e => simp [firstError]

theorem singleton_infix_iff_mem (a : Char) (l : List Char) : [a] <:+: l ↔ a ∈ l := by
  constructor
  · rintro ⟨s, t, rfl⟩
    simp
  · intro h
    obtain ⟨s, t, rfl⟩ := List.append_of_mem h
    exact ⟨s, t, by simp⟩

theorem contains_at_eq_false (s : String) : strings.Contains s "@" = false ↔ ¬ ('@' ∈ s.data) := by
  unfold strings.Contains
  rw [decide_eq_false_iff_not]
  exact not_congr (singleton_infix_iff_mem _ s.data)

theorem utf8ByteSize_go_eq_zero (l : List Char) : String.utf8ByteSize.go l = 0 ↔ l = [] := by
  cases l with
  | nil => simp [String.utf8ByteSize.go]
  | cons c cs =>
    have := Char.utf8Size_pos c
    simp [String.utf8ByteSize.go]
    omega

theorem len_eq_zero (s : String) : len s = 0 ↔ s = "" := by
  cases s with
  | mk l =>
    show String.utf8ByteSize.go l = 0 ↔ _
    rw [utf8ByteSize_go_eq_zero]
    constructor
    · rintro rfl; rfl
    · intro h; exact congrArg String.data h

theorem validateSocial_eq_none (L : Limits) (l : List SocialAccount) :
    validateSocial L l = none ↔
      ∀ s ∈ l, len s.username ≤ L.WordMaxCharacters ∧ len s.type ≤ L.WordMaxCharacters ∧
        len s.proof ≤ L.URLMaxCharacters := by
  induction l with
  | nil => simp [validateSocial]
  | cons a rest ih =>
    simp [validateSocial, firstError_eq_none, failIf_eq_none, ih, and_assoc]

theorem validateLanguages_eq_none (L : Limits) (l : List String) :
    validateLanguages L l = none ↔ ∀ x ∈ l, len x ≤ L.WordMaxCharacters := by
  induction l with
  | nil => simp [validateLanguages]
  | cons a rest ih =>
    simp [validateLanguages, firstError_eq_none, failIf_eq_none, ih]

theorem validateContactInfo_eq_none (L : Limits) (c : Option ContactInfo) :
    validateContactInfo L c = none ↔ ContactInfoOk L c := by
  cases c with
  | none => simp [validateContactInfo, ContactInfoOk]
  | some c =>
    simp [validateContactInfo, ContactInfoOk, firstError_eq_none, failIf_eq_none,
      validateSocial_eq_none]

theorem validateFee_eq_none (L : Limits) (f : Option ModeratorFee) :
    validateFee L f = none ↔ FeeOk L f := by
  cases f with
  | none => simp [validateFee, FeeOk]
  | some fee =>
    cases h : fee.fixedFee with
    | none => simp [validateFee, FeeOk, h]
    | some fixed => simp [validateFee, FeeOk, h, failIf_eq_none]

theorem validateModeratorInfo_eq_none (L : Limits) (m : Option ModeratorInfo) :
    validateModeratorInfo L m = none ↔ ModeratorInfoOk L m := by
  cases m with
  | none => simp [validateModeratorInfo, ModeratorInfoOk]
  | some m =>
    simp [validateModeratorInfo, ModeratorInfoOk, firstError_eq_none, failIf_eq_none,
      validateLanguages_eq_none, validateFee_eq_none]

theorem validateImageHashes_eq_none (mh : String → Bool) (g : Option ImageHashes) :
    validateImageHashes mh g = none ↔ HashGroupOk mh g := by
  cases g with
  | none => simp [validateImageHashes, HashGroupOk]
  | some h =>
    simp only [validateImageHashes, HashGroupOk, ImageHashes.AllEmpty, ImageHashes.AllDecode]
    split
    · rename_i hne
      simp only [firstError_eq_none, List.forall_mem_cons, failIf_eq_none, Bool.not_eq_false_eq_eq_true,
        Bool.not_eq_false']
      simp only [Bool.or_eq_true, bne_iff_ne, ne_eq] at hne
      constructor
      · intro hall
        right
        simpa using hall
      · rintro (hemp | hdec)
        · obtain ⟨h1, h2, h3, h4, h5⟩ := hemp
          simp [h1, h2, h3, h4, h5] at hne
        · simpa using hdec
    · rename_i hne
      simp only [Bool.or_eq_true, bne_iff_ne, ne_eq, not_or, not_not] at hne
      obtain ⟨⟨⟨⟨h1, h2⟩, h3⟩, h4⟩, h5⟩ := hne
      simp [h1, h2, h3, h4, h5]

theorem gt_five_eq_false (x : GoFloat32) :
    x.gt GoFloat32.five = false ↔ (x.isNaN = true ∨ x.le GoFloat32.five = true) := by
  have h5 : GoFloat32.five.isNaN = false := by decide
  simp only [GoFloat32.gt, GoFloat32.le, h5]
  cases hx : x.isNaN <;> simp

theorem validateStats_eq_none (s : Option Stats) :
    validateStats s = none ↔
      ∀ t, s = some t → (t.averageRating.isNaN = true ∨ t.averageRating.le GoFloat32.five = true) := by
  cases s with
  | none => simp [validateStats]
  | some t => simp [validateStats, failIf_eq_none, gt_five_eq_false]

theorem validateProfile_none_iff (L : Limits) (mh : String → Bool) (p : Profile) :
    ValidateProfile L mh p = none ↔ EnforcedConstraints L mh p := by
  simp only [ValidateProfile, EnforcedConstraints, ConstraintsExceptRating, firstError_eq_none,
    List.forall_mem_cons, failIf_eq_none, contains_at_eq_false, validateContactInfo_eq_none,
    validateModeratorInfo_eq_none, validateImageHashes_eq_none, validateStats_eq_none,
    decide_eq_false_iff_not, not_lt, gt_iff_lt, beq_eq_false_iff_ne, ne_eq, len_eq_zero]
  simp only [List.not_mem_nil, false_implies, implies_true, and_true]
  tauto

theorem five_scaled : GoFloat32.five.scaled = 5 * 2 ^ 149 := by
  simp only [GoFloat32.scaled, GoFloat32.five, GoFloat32.magnitude]
  norm_num

theorem gt_eq_true_iff (x y : GoFloat32) (hy : y.isNaN = false) :
    x.gt y = true ↔ (x.isNaN = false ∧ y.scaled < x.scaled) := by
  simp only [GoFloat32.gt, hy]
  cases hx : x.isNaN <;> simp

theorem gt_five_eq_true (x : GoFloat32) :
    x.gt GoFloat32.five = true ↔ (x.isNaN = false ∧ (5 * 2 ^ 149 : Int) < x.scaled) := by
  rw [gt_eq_true_iff x GoFloat32.five (by decide), five_scaled]

theorem constraintsExceptRating_stats (L : Limits) (mh : String → Bool) (p : Profile)
    (s : Option Stats) :
    ConstraintsExceptRating L mh { p with stats := s } ↔ ConstraintsExceptRating L mh p :=
  Iff.rfl

theorem validateProfile_without_stats (L : Limits) (mh : String → Bool) (p : Profile) :
    ValidateProfile L mh { p with stats := none } = none ↔ ConstraintsExceptRating L mh p := by
  rw [validateProfile_none_iff]
  simp [EnforcedConstraints, constraintsExceptRating_stats]

/-- Claim C1, as amended: `ValidateProfile` returns no error if and only if
the handle has no `@`, the name is non-empty, every length and list-size cap
holds, each hash group is absent, all empty or all decoding, the public key
has at most 66 bytes, and stats is absent or the rating is not greater than 5,
that is, at most 5 or NaN. Checks on an absent contactInfo, moderatorInfo, fee
or fixedFee are skipped. -/
theorem ValidateProfile_accepts_iff (L : Limits) (mh : String → Bool) (p : Profile) :
    ValidateProfile L mh p = none ↔ EnforcedConstraints L mh p := by
  simp only [ValidateProfile, EnforcedConstraints, ConstraintsExceptRating, firstError_eq_none,
    List.forall_mem_cons, failIf_eq_none, contains_at_eq_false, validateContactInfo_eq_none,
    validateModeratorInfo_eq_none, validateImageHashes_eq_none, validateStats_eq_none,
    decide_eq_false_iff_not, not_lt, gt_iff_lt, beq_eq_false_iff_ne, ne_eq, len_eq_zero]
  simp only [List.not_mem_nil, false_implies, implies_true, and_true]
  tauto

/-- Claim C1 fails as stated: a profile whose rating is NaN is accepted,
although NaN is not at most 5. -/
theorem ValidateProfile_accepts_nan_rating :
    ¬ (ValidateProfile sampleLimits sampleFromB58String nanRatedProfile = none ↔
        StatedConstraints sampleLimits sampleFromB58String nanRatedProfile) := by
  intro h
  have hv : ValidateProfile sampleLimits sampleFromB58String nanRatedProfile = none := by decide
  have hs := (h.1 hv).2 _ rfl
  revert hs
  decide

/-- Claim C2: provided the empty string does not decode as a multihash, for
the avatar group and for the header group alike, a profile in which some but
not all five variants of the group are non-empty is rejected; and a profile
that is valid without the group is accepted with the group all empty and with
the group all decoding. -/
theorem ValidateProfile_hash_groups (L : Limits) (mh : String → Bool) (hempty : mh "" = false)
    (p : Profile) (h : ImageHashes) :
    ((¬ h.AllEmpty ∧ (h.tiny = "" ∨ h.small = "" ∨ h.medium = "" ∨ h.large = "" ∨ h.original = "")) →
      ValidateProfile L mh { p with avatarHashes := some h } ≠ none ∧
      ValidateProfile L mh { p with headerHashes := some h } ≠ none) ∧
    (ValidateProfile L mh { p with avatarHashes := none } = none →
      (h.AllEmpty → ValidateProfile L mh { p with avatarHashes := some h } = none) ∧
      (h.AllDecode mh → ValidateProfile L mh { p with avatarHashes := some h } = none)) ∧
    (ValidateProfile L mh { p with headerHashes := none } = none →
      (h.AllEmpty → ValidateProfile L mh { p with headerHashes := some h } = none) ∧
      (h.AllDecode mh → ValidateProfile L mh { p with headerHashes := some h } = none)) := by
  have hbad : (¬ h.AllEmpty ∧
      (h.tiny = "" ∨ h.small = "" ∨ h.medium = "" ∨ h.large = "" ∨ h.original = "")) →
      ¬ HashGroupOk mh (some h) := by
    rintro ⟨hne, hsome⟩ (hall | hdec)
    · exact hne hall
    · obtain ⟨d1, d2, d3, d4, d5⟩ := hdec
      rcases hsome with e | e | e | e | e
      · rw [e, hempty] at d1; cases d1
      · rw [e, hempty] at d2; cases d2
      · rw [e, hempty] at d3; cases d3
      · rw [e, hempty] at d4; cases d4
      · rw [e, hempty] at d5; cases d5
  refine ⟨fun hpart => ⟨?_, ?_⟩, fun hval => ⟨fun he => ?_, fun hd => ?_⟩,
    fun hval => ⟨fun he => ?_, fun hd => ?_⟩⟩
  · intro hv
    rw [validateProfile_none_iff] at hv
    exact hbad hpart hv.1.2.2.2.2.2.2.2.2.2.1
  · intro hv
    rw [validateProfile_none_iff] at hv
    exact hbad hpart hv.1.2.2.2.2.2.2.2.2.2.2.1
  all_goals
    rw [validateProfile_none_iff] at hval ⊢
    obtain ⟨⟨c1, c2, c3, c4, c5, c6, c7, c8, c9, c10, c11, c12⟩, cs⟩ := hval
    first
      | exact ⟨⟨c1, c2, c3, c4, c5, c6, c7, c8, c9, Or.inl he, c11, c12⟩, cs⟩
      | exact ⟨⟨c1, c2, c3, c4, c5, c6, c7, c8, c9, Or.inr hd, c11, c12⟩, cs⟩
      | exact ⟨⟨c1, c2, c3, c4, c5, c6, c7, c8, c9, c10, Or.inl he, c12⟩, cs⟩
      | exact ⟨⟨c1, c2, c3, c4, c5, c6, c7, c8, c9, c10, Or.inr hd, c12⟩, cs⟩

/-- Claim C2 at a sample: with only the tiny avatar variant set, the profile
is rejected. -/
theorem ValidateProfile_hash_groups_witness :
    sampleFromB58String "" = false ∧
    ValidateProfile sampleLimits sampleFromB58String
      { namedProfile with avatarHashes := some { tiny := "QmTiny" } } ≠ none :=
  ⟨by decide,
    ((ValidateProfile_hash_groups sampleLimits sampleFromB58String (by decide) namedProfile
      { tiny := "QmTiny" }).1 ⟨fun h => absurd h.1 (by decide), Or.inr (Or.inl rfl)⟩).1⟩

/-- Claim C3: a profile whose handle contains the character `@` is rejected,
with the handle error, whatever its other fields are. -/
theorem ValidateProfile_rejects_at_sign (L : Limits) (mh : String → Bool) (p : Profile)
    (h : '@' ∈ p.handle.data) :
    ValidateProfile L mh p = some "Handle should not contain @" := by
  have hc : strings.Contains p.handle "@" = true := by
    unfold strings.Contains
    rw [decide_eq_true_iff]
    exact (singleton_infix_iff_mem _ _).2 h
  simp [ValidateProfile, firstError, failIf, hc]

/-- Claim C3 at a sample: the handle `@alice` on a profile without a name. -/
theorem ValidateProfile_rejects_at_sign_witness :
    ValidateProfile sampleLimits sampleFromB58String { handle := "@alice" } =
      some "Handle should not contain @" :=
  ValidateProfile_rejects_at_sign sampleLimits sampleFromB58String { handle := "@alice" }
    (by decide)

/-- Claim C4: a profile that is valid without its stats, and has stats, is
rejected if and only if its rating is a number strictly greater than 5 (the
value `scaled` is the rating times `2 ^ 149`); the rating 5.5 is rejected and
the rating 5 is accepted; and with stats absent the outcome is that of the
other constraints alone. -/
theorem ValidateProfile_rating (L : Limits) (mh : String → Bool) (p : Profile) (s : Stats)
    (hother : ValidateProfile L mh { p with stats := none } = none) :
    (ValidateProfile L mh { p with stats := some s } ≠ none ↔
      (s.averageRating.isNaN = false ∧ (5 * 2 ^ 149 : Int) < s.averageRating.scaled)) ∧
    ValidateProfile L mh { p with stats := some { s with averageRating := GoFloat32.fiveAndHalf } }
      ≠ none ∧
    ValidateProfile L mh { p with stats := some { s with averageRating := GoFloat32.five } }
      = none ∧
    (p.stats = none → ValidateProfile L mh p = none) := by
  have hc := (validateProfile_without_stats L mh p).1 hother
  have key : ∀ t : Stats, ValidateProfile L mh { p with stats := some t } = none ↔
      t.averageRating.gt GoFloat32.five = false := by
    intro t
    rw [validateProfile_none_iff, gt_five_eq_false]
    simp [EnforcedConstraints, constraintsExceptRating_stats, hc]
  refine ⟨?_, ?_, ?_, ?_⟩
  · rw [← gt_five_eq_true, Ne, key]
    simp
  · rw [Ne, key]
    show ¬ GoFloat32.gt GoFloat32.fiveAndHalf GoFloat32.five = false
    decide
  · rw [key]
    show GoFloat32.gt GoFloat32.five GoFloat32.five = false
    decide
  · intro hs
    have : p = { p with stats := none } := by
      cases p
      simp only [Profile.mk.injEq, true_and]
      simpa using hs
    rw [this]
    exact hother

/-- Claim C4 at a sample: the named profile with rating 5.5 is rejected. -/
theorem ValidateProfile_rating_witness :
    ValidateProfile sampleLimits sampleFromB58String { namedProfile with stats := none } = none ∧
    ValidateProfile sampleLimits sampleFromB58String
      { namedProfile with stats := some { averageRating := GoFloat32.fiveAndHalf } } ≠ none :=
  ⟨by decide,
    (ValidateProfile_rating sampleLimits sampleFromB58String namedProfile {} (by decide)).2.1⟩

/-! ### FetchProfile -/

theorem staleCheck_iff (env : Env) (e : IpnsEntry) (now : Time) :
    ((checkEOL env e).2 && (checkEOL env e).1.Before now) = true ↔ Stale env e now := by
  unfold checkEOL Stale
  by_cases ht : e.GetValidityType = IpnsEntry_EOL
  · cases hp : env.ParseRFC3339 e.validity with
    | none => simp [ht]
    | some eol => simp [ht, Time.Before]
  · simp [ht]

theorem fetch_empty_events (env : Env) (peerId : String) :
    (fetch env peerId "").2 = [Event.resolveThenCat (env.pathJoin peerId "profile")] := by
  unfold fetch
  simp only [beq_self_eq_true, if_true]
  split <;> rfl

theorem fetch_root_events (env : Env) (peerId root : String) (h : root ≠ "") :
    (fetch env peerId root).2 = [Event.cat (env.pathJoin root "profile")] := by
  unfold fetch
  have hb : (root == "") = false := by simpa using h
  simp only [hb, Bool.false_eq_true, if_false]
  split <;> rfl

theorem fetch_empty_ok (env : Env) (peerId doc : String) (pro : Profile)
    (hres : env.ResolveThenCat (env.pathJoin peerId "profile") = (doc, none))
    (hlen : len doc ≠ 0) (hjson : env.jsonpbUnmarshalString doc = (pro, none)) :
    fetch env peerId "" =
      ((pro, none), [Event.resolveThenCat (env.pathJoin peerId "profile")]) := by
  unfold fetch
  simp [hres, hlen, hjson]

theorem fetch_root_ok (env : Env) (peerId root doc : String) (pro : Profile) (h : root ≠ "")
    (hres : env.Cat (env.pathJoin root "profile") = (doc, none))
    (hlen : len doc ≠ 0) (hjson : env.jsonpbUnmarshalString doc = (pro, none)) :
    fetch env peerId root = ((pro, none), [Event.cat (env.pathJoin root "profile")]) := by
  unfold fetch
  have hb : (root == "") = false := by simpa using h
  simp [hb, hres, hlen, hjson]

theorem validateAndStamp_events (env : Env) (pro : Profile) (ra : Bool) (val : Option Bytes)
    (events : List Event) (tasks : List Task) :
    (validateAndStamp env pro ra val events tasks).events = events := by
  unfold validateAndStamp
  split <;> rfl

theorem validateAndStamp_tasks (env : Env) (pro : Profile) (ra : Bool) (val : Option Bytes)
    (events : List Event) (tasks : List Task) :
    (validateAndStamp env pro ra val events tasks).tasks = tasks ∨
      (validateAndStamp env pro ra val events tasks).tasks = tasks ++ [Task.stamp ra val] := by
  unfold validateAndStamp
  split
  · exact Or.inl rfl
  · exact Or.inr rfl

theorem validateAndStamp_ok (env : Env) (pro : Profile) (ra : Bool) (val : Option Bytes)
    (events : List Event) (tasks : List Task)
    (hval : ValidateProfile env.limits env.FromB58String pro = none) :
    validateAndStamp env pro ra val events tasks =
      ⟨pro, none, events, tasks ++ [Task.stamp ra val]⟩ := by
  unfold validateAndStamp
  rw [hval]

theorem FetchProfile_of_stale (env : Env) (d : Datastore) (now : Time) (peerId : String)
    (val : Bytes) (entry : IpnsEntry) (p : String)
    (hget : d (recordKey env peerId) = some val)
    (hdec : env.protoUnmarshal val = .ok entry)
    (hpath : env.ParsePath entry.value = .ok p)
    (hstale : Stale env entry now) :
    FetchProfile env d now peerId true =
      match (fetch env peerId "").1.2 with
      | some e => ⟨{}, some e, Event.dsGet (recordKey env peerId) :: (fetch env peerId "").2, []⟩
      | none =>
        validateAndStamp env (fetch env peerId "").1.1 true (some val)
          (Event.dsGet (recordKey env peerId) :: (fetch env peerId "").2) [] := by
  have hs := (staleCheck_iff env entry now).2 hstale
  unfold recordKey at hget
  simp only [FetchProfile, recordKey, if_true, hget, hdec, hpath, hs]

theorem FetchProfile_of_fresh (env : Env) (d : Datastore) (now : Time) (peerId : String)
    (val : Bytes) (entry : IpnsEntry) (p : String)
    (hget : d (recordKey env peerId) = some val)
    (hdec : env.protoUnmarshal val = .ok entry)
    (hpath : env.ParsePath entry.value = .ok p)
    (hfresh : ¬ Stale env entry now) :
    FetchProfile env d now peerId true =
      match (fetch env peerId (strings.TrimPrefix p "/ipfs/")).1.2 with
      | some e =>
        ⟨{}, some e,
          Event.dsGet (recordKey env peerId) :: (fetch env peerId (strings.TrimPrefix p "/ipfs/")).2,
          [Task.prewarm]⟩
      | none =>
        validateAndStamp env (fetch env peerId (strings.TrimPrefix p "/ipfs/")).1.1 true (some val)
          (Event.dsGet (recordKey env peerId) :: (fetch env peerId (strings.TrimPrefix p "/ipfs/")).2)
          [Task.prewarm] := by
  have hs : ((checkEOL env entry).2 && (checkEOL env entry).1.Before now) = false := by
    rw [Bool.eq_false_iff]
    exact fun h => hfresh ((staleCheck_iff env entry now).1 h)
  unfold recordKey at hget
  simp only [FetchProfile, recordKey, if_true, hget, hdec, hpath, hs]
  rfl

theorem runTask_stamp_available (env : Env) (peerId : String) (val out : Bytes)
    (entry : IpnsEntry) (d : Datastore) (now : Time)
    (hdec : env.protoUnmarshal val = .ok entry)
    (hm : env.protoMarshal { entry with validity := env.FormatRFC3339 (now + CachedProfileTime) }
      = .ok out) :
    runTask env peerId (Task.stamp true (some val)) d now =
      (Function.update d (recordKey env peerId) (some out),
        [Event.dsPut (recordKey env peerId) out]) := by
  simp [runTask, recordKey, hdec, hm]

theorem runTask_stamp_reread_none (env : Env) (peerId : String) (val : Option Bytes)
    (d : Datastore) (now : Time) (hget : d (recordKey env peerId) = none) :
    runTask env peerId (Task.stamp false val) d now = (d, [Event.dsGet (recordKey env peerId)]) := by
  unfold recordKey at hget
  simp [runTask, recordKey, hget]

theorem runTask_stamp_reread_some (env : Env) (peerId : String) (val : Option Bytes)
    (found out : Bytes) (entry : IpnsEntry) (d : Datastore) (now : Time)
    (hget : d (recordKey env peerId) = some found)
    (hdec : env.protoUnmarshal found = .ok entry)
    (hm : env.protoMarshal { entry with validity := env.FormatRFC3339 (now + CachedProfileTime) }
      = .ok out) :
    runTask env peerId (Task.stamp false val) d now =
      (Function.update d (recordKey env peerId) (some out),
        [Event.dsGet (recordKey env peerId), Event.dsPut (recordKey env peerId) out]) := by
  unfold recordKey at hget
  simp [runTask, recordKey, hget, hdec, hm]

theorem runTask_stamp_no_cat (env : Env) (peerId : String) (ra : Bool) (val : Option Bytes)
    (d : Datastore) (now : Time) (path : String) :
    Event.cat path ∉ (runTask env peerId (Task.stamp ra val) d now).2 := by
  simp only [runTask]
  split
  · split <;> simp
  · split
    · split <;> simp
    · split
      · split <;> simp
      · split <;> simp

theorem cachedProfileTime_eq : CachedProfileTime = 604800 * 1000000000 := by
  decide

/-- Claim C5: with `useCache = true` and a decodable cached record with a
valid path, the staleness test of line 93 holds exactly when the validity type
is EOL, the validity parses and the parsed time is strictly before now. For a
stale record the call is the full resolution (`fetch` with the empty root)
followed by validation: its calls are the `Get` and one `ResolveThenCat`, it
starts no other goroutine than the stamping one, and neither the call nor that
goroutine makes a direct `Cat`. For a record that is not stale the fetch is
the one at the root of the record. -/
theorem FetchProfile_stale_record (env : Env) (d : Datastore) (now : Time) (peerId : String)
    (val : Bytes) (entry : IpnsEntry) (p : String)
    (hget : d (recordKey env peerId) = some val)
    (hdec : env.protoUnmarshal val = .ok entry)
    (hpath : env.ParsePath entry.value = .ok p) :
    (((checkEOL env entry).2 && (checkEOL env entry).1.Before now) = true ↔
      Stale env entry now) ∧
    (Stale env entry now →
      (FetchProfile env d now peerId true =
        match (fetch env peerId "").1.2 with
        | some e => ⟨{}, some e, Event.dsGet (recordKey env peerId) :: (fetch env peerId "").2, []⟩
        | none =>
          validateAndStamp env (fetch env peerId "").1.1 true (some val)
            (Event.dsGet (recordKey env peerId) :: (fetch env peerId "").2) []) ∧
      (FetchProfile env d now peerId true).events =
        [Event.dsGet (recordKey env peerId),
          Event.resolveThenCat (env.pathJoin peerId "profile")] ∧
      (∀ t ∈ (FetchProfile env d now peerId true).tasks, t = Task.stamp true (some val)) ∧
      ∀ path d' now', Event.cat path ∉ (FetchProfile env d now peerId true).events ++
        (runTasks env peerId ((FetchProfile env d now peerId true).tasks.map (·, now')) d').2) ∧
    (¬ Stale env entry now →
      (FetchProfile env d now peerId true).events =
        Event.dsGet (recordKey env peerId) ::
          (fetch env peerId (strings.TrimPrefix p "/ipfs/")).2 ∧
      Task.prewarm ∈ (FetchProfile env d now peerId true).tasks) := by
  refine ⟨staleCheck_iff env entry now, fun hstale => ?_, fun hfresh => ?_⟩
  · have hF := FetchProfile_of_stale env d now peerId val entry p hget hdec hpath hstale
    have hev : (FetchProfile env d now peerId true).events =
        [Event.dsGet (recordKey env peerId),
          Event.resolveThenCat (env.pathJoin peerId "profile")] := by
      rw [hF]
      split
      · simp [fetch_empty_events]
      · rw [validateAndStamp_events, fetch_empty_events]
    have htasks : (FetchProfile env d now peerId true).tasks = [] ∨
        (FetchProfile env d now peerId true).tasks = [Task.stamp true (some val)] := by
      rw [hF]
      split
      · exact Or.inl rfl
      · simpa using validateAndStamp_tasks env (fetch env peerId "").1.1 true (some val)
          (Event.dsGet (recordKey env peerId) :: (fetch env peerId "").2) []
    refine ⟨hF, hev, ?_, ?_⟩
    · intro t ht
      rcases htasks with h | h
      · rw [h] at ht; cases ht
      · rw [h] at ht; simpa using ht
    · intro path d' now'
      rw [hev]
      rcases htasks with h | h
      · rw [h]; simp [runTasks]
      · rw [h]
        have := runTask_stamp_no_cat env peerId true (some val) d' now' path
        simpa [runTasks] using this
  · have hF := FetchProfile_of_fresh env d now peerId val entry p hget hdec hpath hfresh
    constructor
    · rw [hF]
      split
      · rfl
      · rw [validateAndStamp_events]
    · rw [hF]
      split
      · simp
      · rcases validateAndStamp_tasks env
          (fetch env peerId (strings.TrimPrefix p "/ipfs/")).1.1 true (some val)
          (Event.dsGet (recordKey env peerId) ::
            (fetch env peerId (strings.TrimPrefix p "/ipfs/")).2) [Task.prewarm] with h | h
        · rw [h]; simp
        · rw [h]; simp

/-- Claim C5 at a sample: the record with validity 500 is stale at time 1000,
and the call makes the `Get` and the full resolution. -/
theorem FetchProfile_stale_record_witness :
    Stale sampleEnv oldRecord 1000 ∧
    (FetchProfile sampleEnv oldStore 1000 "QmPeer" true).events =
      [Event.dsGet sampleKey, Event.resolveThenCat "QmPeer/profile"] :=
  have hs : Stale sampleEnv oldRecord 1000 := ⟨by decide, 500, by decide, by decide⟩
  ⟨hs, ((FetchProfile_stale_record sampleEnv oldStore 1000 "QmPeer" oldRecordBytes oldRecord
    "/ipfs/QmOld" (by decide) (by rfl) (by rfl)).2.1 hs).2.1⟩

/-- Claim C6: with `useCache = true` and a cached record that is not stale
(in particular one whose EOL is strictly in the future), whose root (the
parsed content path without the leading `/ipfs/`) is non-empty, when the
direct fetch at the root joined with `profile` and the validation succeed:
the profile returned is the one fetched there, the only network call of the
synchronous part is that `Cat`, the goroutines are the discarded resolution
and the stamping one, and the stamping goroutine, run at any time, puts under
the same key the record read, with only its validity replaced by the
rendering of that time plus `CachedProfileTime`, which is 604800 seconds. -/
theorem FetchProfile_fresh_record (env : Env) (d : Datastore) (now : Time) (peerId : String)
    (val : Bytes) (entry : IpnsEntry) (p doc : String) (pro : Profile)
    (hget : d (recordKey env peerId) = some val)
    (hdec : env.protoUnmarshal val = .ok entry)
    (hpath : env.ParsePath entry.value = .ok p)
    (hfresh : ¬ Stale env entry now)
    (hroot : strings.TrimPrefix p "/ipfs/" ≠ "")
    (hcat : env.Cat (env.pathJoin (strings.TrimPrefix p "/ipfs/") "profile") = (doc, none))
    (hlen : len doc ≠ 0)
    (hjson : env.jsonpbUnmarshalString doc = (pro, none))
    (hval : ValidateProfile env.limits env.FromB58String pro = none) :
    FetchProfile env d now peerId true =
      ⟨pro, none,
        [Event.dsGet (recordKey env peerId),
          Event.cat (env.pathJoin (strings.TrimPrefix p "/ipfs/") "profile")],
        [Task.prewarm, Task.stamp true (some val)]⟩ ∧
    (∀ (d' : Datastore) (now' : Time) (out : Bytes),
      env.protoMarshal { entry with validity := env.FormatRFC3339 (now' + CachedProfileTime) }
        = .ok out →
      runTask env peerId (Task.stamp true (some val)) d' now' =
        (Function.update d' (recordKey env peerId) (some out),
          [Event.dsPut (recordKey env peerId) out])) ∧
    CachedProfileTime = 604800 * 1000000000 := by
  refine ⟨?_, fun d' now' out hm => runTask_stamp_available env peerId val out entry d' now' hdec hm,
    cachedProfileTime_eq⟩
  rw [FetchProfile_of_fresh env d now peerId val entry p hget hdec hpath hfresh,
    fetch_root_ok env peerId _ doc pro hroot hcat hlen hjson]
  simp only []
  rw [validateAndStamp_ok env pro true (some val) _ _ hval]
  rfl

/-- Claim C6 at a sample: at time 400 the record with validity 500 is fresh;
the profile comes from `QmOld/profile`, and the stamping goroutine run at time
1000 stores the same content path with validity 1000 plus one week. -/
theorem FetchProfile_fresh_record_witness :
    ¬ Stale sampleEnv oldRecord 400 ∧
    (FetchProfile sampleEnv oldStore 400 "QmPeer" true).profile = namedProfile ∧
    (FetchProfile sampleEnv oldStore 400 "QmPeer" true).events =
      [Event.dsGet sampleKey, Event.cat "QmOld/profile"] ∧
    ((runTask sampleEnv "QmPeer" (Task.stamp true (some oldRecordBytes)) oldStore 1000).1
        sampleKey).map sampleUnmarshal =
      some (.ok { value := "/ipfs/QmOld", validity := "604800000001000" }) := by
  have hfresh : ¬ Stale sampleEnv oldRecord 400 := by
    rintro ⟨_, eol, h1, h2⟩
    have h0 : sampleEnv.ParseRFC3339 oldRecord.validity = some 500 := by decide
    rw [h0] at h1
    have h3 : (500 : Int) = eol := Option.some.inj h1
    rw [← h3] at h2
    exact absurd h2 (by decide)
  have h := FetchProfile_fresh_record sampleEnv oldStore 400 "QmPeer" oldRecordBytes oldRecord
    "/ipfs/QmOld" sampleDocument namedProfile (by decide) (by rfl) (by rfl) hfresh (by decide)
    (by decide) (by decide) (by decide) (by decide)
  refine ⟨hfresh, ?_, ?_, ?_⟩
  · rw [h.1]
  · rw [h.1]; decide
  · rw [h.2.1 oldStore 1000 _ rfl]
    rfl

theorem fetchProfile_without_cache_unfold (env : Env) (d : Datastore) (now : Time) (peerId : String) :
    FetchProfile env d now peerId false =
      match (fetch env peerId "").1.2 with
      | some e => ⟨{}, some e, (fetch env peerId "").2, []⟩
      | none => validateAndStamp env (fetch env peerId "").1.1 false none (fetch env peerId "").2 [] := by
  simp only [FetchProfile, Bool.false_eq_true, if_false]

theorem FetchProfile_of_no_record (env : Env) (d : Datastore) (now : Time) (peerId : String)
    (hget : d (recordKey env peerId) = none) :
    FetchProfile env d now peerId true =
      match (fetch env peerId "").1.2 with
      | some e => ⟨{}, some e, Event.dsGet (recordKey env peerId) :: (fetch env peerId "").2, []⟩
      | none =>
        validateAndStamp env (fetch env peerId "").1.1 false none
          (Event.dsGet (recordKey env peerId) :: (fetch env peerId "").2) [] := by
  unfold recordKey at hget
  simp only [FetchProfile, recordKey, if_true, hget]

/-- Claim C7 fails as stated: with `useCache = false` and a record stored for
the peer, the call succeeds and starts the stamping goroutine, which reads the
record and writes it back with a new validity, so the datastore changes. -/
theorem no_cache_call_restamps_record :
    (FetchProfile sampleEnv oldStore 1000 "QmPeer" false).err = none ∧
    (FetchProfile sampleEnv oldStore 1000 "QmPeer" false).tasks = [Task.stamp false none] ∧
    (runTasks sampleEnv "QmPeer"
        ((FetchProfile sampleEnv oldStore 1000 "QmPeer" false).tasks.map (·, 1000)) oldStore).2 =
      [Event.dsGet sampleKey,
        Event.dsPut sampleKey
          [47, 105, 112, 102, 115, 47, 81, 109, 79, 108, 100, 0,
            54, 48, 52, 56, 48, 48, 48, 48, 48, 48, 48, 49, 48, 48, 48]] ∧
    (runTasks sampleEnv "QmPeer"
        ((FetchProfile sampleEnv oldStore 1000 "QmPeer" false).tasks.map (·, 1000)) oldStore).1
      sampleKey ≠ oldStore sampleKey := by
  decide

/-- Claim C7, as amended: with `useCache = false` the synchronous part makes
one call, the full resolution, and no `Get` and no `Put`; when it returns an
error it starts no goroutine; otherwise it starts the stamping goroutine alone,
which makes one `Get` under the key of the peer and then, when no record is
stored there, nothing more (the datastore is unchanged), and when a decodable
record is stored there, one `Put` of that record with its validity set to the
stamping time plus `CachedProfileTime`. -/
theorem FetchProfile_no_cache (env : Env) (d : Datastore) (now : Time) (peerId : String) :
    (FetchProfile env d now peerId false).events =
      [Event.resolveThenCat (env.pathJoin peerId "profile")] ∧
    ((FetchProfile env d now peerId false).err ≠ none →
      (FetchProfile env d now peerId false).tasks = []) ∧
    ((FetchProfile env d now peerId false).err = none →
      (FetchProfile env d now peerId false).tasks = [Task.stamp false none]) ∧
    (∀ (d' : Datastore) (now' : Time), d' (recordKey env peerId) = none →
      runTask env peerId (Task.stamp false none) d' now' =
        (d', [Event.dsGet (recordKey env peerId)])) ∧
    (∀ (d' : Datastore) (now' : Time) (found out : Bytes) (entry : IpnsEntry),
      d' (recordKey env peerId) = some found → env.protoUnmarshal found = .ok entry →
      env.protoMarshal { entry with validity := env.FormatRFC3339 (now' + CachedProfileTime) }
        = .ok out →
      runTask env peerId (Task.stamp false none) d' now' =
        (Function.update d' (recordKey env peerId) (some out),
          [Event.dsGet (recordKey env peerId), Event.dsPut (recordKey env peerId) out])) := by
  have hF := fetchProfile_without_cache_unfold env d now peerId
  refine ⟨?_, ?_, ?_, fun d' now' h => runTask_stamp_reread_none env peerId none d' now' h,
    fun d' now' found out entry h1 h2 h3 =>
      runTask_stamp_reread_some env peerId none found out entry d' now' h1 h2 h3⟩
  · rw [hF]
    split
    · exact fetch_empty_events env peerId
    · rw [validateAndStamp_events, fetch_empty_events]
  · intro herr
    rw [hF] at herr ⊢
    split
    · rfl
    · rename_i hnone
      simp only [hnone] at herr
      unfold validateAndStamp at herr ⊢
      split
      · rfl
      · rename_i hv
        simp [hv] at herr
  · intro herr
    rw [hF] at herr ⊢
    split
    · rename_i e hsome
      simp [hsome] at herr
    · rename_i hnone
      simp only [hnone] at herr
      unfold validateAndStamp at herr ⊢
      split
      · rename_i e hv
        simp [hv] at herr
      · rfl

/-- Claim C8 fails as stated: with `useCache = true`, an empty datastore, a
successful resolution and a valid profile, the stamping goroutine finds no
record under the key of the peer and stores none. -/
theorem no_record_call_stores_nothing :
    (FetchProfile sampleEnv emptyStore 1000 "QmPeer" true).err = none ∧
    (FetchProfile sampleEnv emptyStore 1000 "QmPeer" true).profile = namedProfile ∧
    (FetchProfile sampleEnv emptyStore 1000 "QmPeer" true).tasks = [Task.stamp false none] ∧
    (runTasks sampleEnv "QmPeer"
        ((FetchProfile sampleEnv emptyStore 1000 "QmPeer" true).tasks.map (·, 1000)) emptyStore).1
      sampleKey = none := by
  decide

/-- Claim C8, as amended: with `useCache = true` and no cached record for the
peer, when the full resolution succeeds and the profile validates, the call
returns the profile and starts the stamping goroutine alone. That goroutine
reads the datastore again under the key `cachePrefix + peerId`: when no record
is stored there it writes nothing; when a decodable record is stored there by
then, it writes it back under the same key with its content path unchanged and
its validity set to the stamping time plus one week. -/
theorem FetchProfile_no_record (env : Env) (d : Datastore) (now : Time) (peerId doc : String)
    (pro : Profile)
    (hget : d (recordKey env peerId) = none)
    (hres : env.ResolveThenCat (env.pathJoin peerId "profile") = (doc, none))
    (hlen : len doc ≠ 0)
    (hjson : env.jsonpbUnmarshalString doc = (pro, none))
    (hval : ValidateProfile env.limits env.FromB58String pro = none) :
    FetchProfile env d now peerId true =
      ⟨pro, none,
        [Event.dsGet (recordKey env peerId), Event.resolveThenCat (env.pathJoin peerId "profile")],
        [Task.stamp false none]⟩ ∧
    recordKey env peerId = env.NewKey ("IPNSPERSISENTCACHE_" ++ peerId) ∧
    (∀ (d' : Datastore) (now' : Time), d' (recordKey env peerId) = none →
      runTask env peerId (Task.stamp false none) d' now' =
        (d', [Event.dsGet (recordKey env peerId)])) ∧
    (∀ (d' : Datastore) (now' : Time) (found out : Bytes) (entry : IpnsEntry),
      d' (recordKey env peerId) = some found → env.protoUnmarshal found = .ok entry →
      env.protoMarshal { entry with validity := env.FormatRFC3339 (now' + 7 * (24 * Hour)) }
        = .ok out →
      runTask env peerId (Task.stamp false none) d' now' =
        (Function.update d' (recordKey env peerId) (some out),
          [Event.dsGet (recordKey env peerId), Event.dsPut (recordKey env peerId) out])) := by
  refine ⟨?_, rfl, fun d' now' h => runTask_stamp_reread_none env peerId none d' now' h,
    fun d' now' found out entry h1 h2 h3 =>
      runTask_stamp_reread_some env peerId none found out entry d' now' h1 h2 ?_⟩
  · rw [FetchProfile_of_no_record env d now peerId hget,
      fetch_empty_ok env peerId doc pro hres hlen hjson]
    simp only []
    rw [validateAndStamp_ok env pro false none _ _ hval]
    rfl
  · have hw : CachedProfileTime = 7 * (24 * Hour) := by decide
    rw [hw]
    exact h3

/-- Claim C8 at a sample: on the empty datastore the call succeeds; the
stamping goroutine, run when the record for `/ipfs/QmNew` has been stored,
writes that content path back with validity 1000 plus one week. -/
theorem FetchProfile_no_record_witness :
    emptyStore (recordKey sampleEnv "QmPeer") = none ∧
    (FetchProfile sampleEnv emptyStore 1000 "QmPeer" true).tasks = [Task.stamp false none] ∧
    ((runTask sampleEnv "QmPeer" (Task.stamp false none) newStore 1000).1 sampleKey).map
        sampleUnmarshal =
      some (.ok { value := "/ipfs/QmNew", validity := "604800000001000" }) := by
  have h := FetchProfile_no_record sampleEnv emptyStore 1000 "QmPeer" sampleDocument namedProfile
    (by decide) (by decide) (by decide) (by decide) (by decide)
  refine ⟨by decide, ?_, ?_⟩
  · rw [h.1]
  · rw [h.2.2.2 newStore 1000 newRecordBytes _ newRecord (by decide) (by rfl) rfl]
    rfl

/-- Claim C9, the code at the failing input: with a stale record for
`/ipfs/QmOld` cached, the call makes the full resolution and succeeds, and its
stamping goroutine holds the stale bytes read at the start. Run when the
datastore holds the newly resolved record for `/ipfs/QmNew`, it overwrites that
record with the stale content path and a validity of one more week, whereas
the stamping goroutine of the no-record flow keeps `/ipfs/QmNew`. -/
theorem stale_path_written_back :
    Stale sampleEnv oldRecord 1000 ∧
    (FetchProfile sampleEnv oldStore 1000 "QmPeer" true).err = none ∧
    (FetchProfile sampleEnv oldStore 1000 "QmPeer" true).events =
      [Event.dsGet sampleKey, Event.resolveThenCat "QmPeer/profile"] ∧
    (FetchProfile sampleEnv oldStore 1000 "QmPeer" true).tasks =
      [Task.stamp true (some oldRecordBytes)] ∧
    ((runTasks sampleEnv "QmPeer"
        ((FetchProfile sampleEnv oldStore 1000 "QmPeer" true).tasks.map (·, 1000)) newStore).1
      sampleKey).map sampleUnmarshal =
      some (.ok { value := "/ipfs/QmOld", validity := "604800000001000" }) ∧
    ((runTasks sampleEnv "QmPeer"
        ((FetchProfile sampleEnv emptyStore 1000 "QmPeer" true).tasks.map (·, 1000)) newStore).1
      sampleKey).map sampleUnmarshal =
      some (.ok { value := "/ipfs/QmNew", validity := "604800000001000" }) := by
  refine ⟨⟨by decide, 500, by decide, by decide⟩, by decide, by decide, by decide, ?_, ?_⟩
  · rfl
  · rfl

/-! ### PatchProfile -/

theorem UpdateProfile_no_moderator_call (env : Env) (stored : Option String) (profile : Profile) :
    (UpdateProfile env stored profile).events.filter LocalEvent.isModeratorCall = [] := by
  simp only [UpdateProfile]
  repeat' split
  all_goals rfl

theorem mergeAndUpdate_events (env : Env) (stored : Option String) (patch profile : JSONObject)
    (events : List LocalEvent) :
    ∃ tail, (mergeAndUpdate env stored patch profile events).events =
        events ++ LocalEvent.mergoMap :: tail ∧
      tail.filter LocalEvent.isModeratorCall = [] := by
  simp only [mergeAndUpdate]
  split
  · exact ⟨[], rfl, rfl⟩
  · split
    · exact ⟨[], rfl, rfl⟩
    · rename_i merged _ _ _
      exact ⟨(UpdateProfile env stored
          (env.jsonpbUnmarshalString (env.jsonMarshal merged).1).1).events, by simp,
        UpdateProfile_no_moderator_call env stored _⟩

theorem PatchProfile_of_bools (env : Env) (file openErr : String) (patch profile : JSONObject)
    (patchBool storedBool : Bool)
    (hdec : env.jsonDecode file = .ok (JSONValue.object profile))
    (hp : JSONObject.get patch "moderator" = some (JSONValue.bool patchBool))
    (hs : JSONObject.get profile "moderator" = some (JSONValue.bool storedBool)) :
    PatchProfile env (some file) openErr patch =
      if patchBool && patchBool != storedBool then
        match env.SetSelfAsModerator with
        | some e => ⟨Outcome.returned (some e), some file, [LocalEvent.setSelfAsModerator]⟩
        | none => mergeAndUpdate env (some file) patch profile [LocalEvent.setSelfAsModerator]
      else if !patchBool && patchBool != storedBool then
        match env.RemoveSelfAsModerator with
        | some e => ⟨Outcome.returned (some e), some file, [LocalEvent.removeSelfAsModerator]⟩
        | none => mergeAndUpdate env (some file) patch profile [LocalEvent.removeSelfAsModerator]
      else mergeAndUpdate env (some file) patch profile [] := by
  simp only [PatchProfile, hdec, hp, hs]

/-- Claim C10: in PatchProfile, when the patch and the stored document both
hold a boolean `moderator`: if the values differ, the first side effect of the
call is the moderator registration (`SetSelfAsModerator` when the patch value
is true, `RemoveSelfAsModerator` when it is false), so it precedes the merge
and the write, and it is the only moderator-registration call; if the values
are equal, the first side effect is the merge and no moderator-registration
call is made. -/
theorem PatchProfile_moderator_toggle (env : Env) (file openErr : String)
    (patch profile : JSONObject) (patchBool storedBool : Bool)
    (hdec : env.jsonDecode file = .ok (JSONValue.object profile))
    (hp : JSONObject.get patch "moderator" = some (JSONValue.bool patchBool))
    (hs : JSONObject.get profile "moderator" = some (JSONValue.bool storedBool)) :
    (patchBool ≠ storedBool → patchBool = true →
      (PatchProfile env (some file) openErr patch).events.head? =
        some LocalEvent.setSelfAsModerator ∧
      (PatchProfile env (some file) openErr patch).events.filter LocalEvent.isModeratorCall =
        [LocalEvent.setSelfAsModerator]) ∧
    (patchBool ≠ storedBool → patchBool = false →
      (PatchProfile env (some file) openErr patch).events.head? =
        some LocalEvent.removeSelfAsModerator ∧
      (PatchProfile env (some file) openErr patch).events.filter LocalEvent.isModeratorCall =
        [LocalEvent.removeSelfAsModerator]) ∧
    (patchBool = storedBool →
      (PatchProfile env (some file) openErr patch).events.head? = some LocalEvent.mergoMap ∧
      (PatchProfile env (some file) openErr patch).events.filter LocalEvent.isModeratorCall =
        []) := by
  have hF := PatchProfile_of_bools env file openErr patch profile patchBool storedBool hdec hp hs
  refine ⟨fun hne ht => ?_, fun hne hf => ?_, fun heq => ?_⟩
  · subst ht
    have hsb : storedBool = false := by cases storedBool <;> simp_all
    subst hsb
    simp only [Bool.true_and, bne_self_eq_false, Bool.true_bne, Bool.not_false, if_true] at hF
    rw [hF]
    split
    · exact ⟨rfl, rfl⟩
    · obtain ⟨tail, h1, h2⟩ :=
        mergeAndUpdate_events env (some file) patch profile [LocalEvent.setSelfAsModerator]
      rw [h1]
      refine ⟨rfl, ?_⟩
      simp [List.filter_cons, LocalEvent.isModeratorCall, h2]
  · subst hf
    have hsb : storedBool = true := by cases storedBool <;> simp_all
    subst hsb
    simp only [Bool.false_and, Bool.false_eq_true, if_false, Bool.not_false, Bool.true_and,
      Bool.false_bne, if_true] at hF
    rw [hF]
    split
    · exact ⟨rfl, rfl⟩
    · obtain ⟨tail, h1, h2⟩ :=
        mergeAndUpdate_events env (some file) patch profile [LocalEvent.removeSelfAsModerator]
      rw [h1]
      refine ⟨rfl, ?_⟩
      simp [List.filter_cons, LocalEvent.isModeratorCall, h2]
  · subst heq
    simp only [bne_self_eq_false, Bool.and_false, Bool.false_eq_true, if_false] at hF
    rw [hF]
    obtain ⟨tail, h1, h2⟩ := mergeAndUpdate_events env (some file) patch profile []
    rw [h1]
    refine ⟨rfl, ?_⟩
    simp [List.filter_cons, LocalEvent.isModeratorCall, h2]

/-- Claim C10 at a sample: against a stored document with `moderator` false,
the patch with `moderator` true calls `SetSelfAsModerator` once, first, and
the patch with `moderator` false calls neither. -/
theorem PatchProfile_moderator_toggle_witness :
    (PatchProfile sampleEnv sampleFile "open failed"
        [("moderator", JSONValue.bool true)]).events.filter LocalEvent.isModeratorCall =
      [LocalEvent.setSelfAsModerator] ∧
    (PatchProfile sampleEnv sampleFile "open failed" [("moderator", JSONValue.bool true)]).events =
      [LocalEvent.setSelfAsModerator, LocalEvent.mergoMap, LocalEvent.create,
        LocalEvent.writeString "name: alice"] ∧
    (PatchProfile sampleEnv sampleFile "open failed"
        [("moderator", JSONValue.bool false)]).events.filter LocalEvent.isModeratorCall = [] :=
  ⟨((PatchProfile_moderator_toggle sampleEnv "name: alice, moderator: false" "open failed"
      [("moderator", JSONValue.bool true)]
      [("name", JSONValue.string "alice"), ("moderator", JSONValue.bool false)] true false
      rfl rfl rfl).1 (by decide) rfl).2,
    by decide,
    ((PatchProfile_moderator_toggle sampleEnv "name: alice, moderator: false" "open failed"
      [("moderator", JSONValue.bool false)]
      [("name", JSONValue.string "alice"), ("moderator", JSONValue.bool false)] false false
      rfl rfl rfl).2.2 rfl).2⟩

theorem get_set_self (m : JSONObject) (k : String) (v : JSONValue) :
    JSONObject.get (JSONObject.set m k v) k = some v := by
  induction m with
  | nil => simp [JSONObject.set, JSONObject.get, List.lookup]
  | cons a rest ih =>
    obtain ⟨k', v'⟩ := a
    by_cases h : k' = k
    · simp [JSONObject.set, JSONObject.get, List.lookup, h]
    · have hb : (k == k') = false := by simpa using fun e => h e.symm
      simp only [JSONObject.set, h, if_false, JSONObject.get, List.lookup, hb]
      exact ih

theorem get_set_other (m : JSONObject) (k k' : String) (v : JSONValue) (h : k ≠ k') :
    JSONObject.get (JSONObject.set m k v) k' = JSONObject.get m k' := by
  induction m with
  | nil =>
    have hb : (k' == k) = false := by simpa using fun e => h e.symm
    simp [JSONObject.set, JSONObject.get, List.lookup, hb]
  | cons a rest ih =>
    obtain ⟨k0, v0⟩ := a
    by_cases h0 : k0 = k
    · subst h0
      have hb : (k' == k0) = false := by simpa using fun e => h e.symm
      simp [JSONObject.set, JSONObject.get, List.lookup, hb]
    · simp only [JSONObject.set, h0, if_false, JSONObject.get, List.lookup]
      cases hk : (k' == k0)
      · exact ih
      · rfl

theorem get_eq_none_of_not_mem (m : JSONObject) (k : String) (h : k ∉ m.map Prod.fst) :
    JSONObject.get m k = none := by
  induction m with
  | nil => rfl
  | cons a rest ih =>
    obtain ⟨k0, v0⟩ := a
    simp only [List.map_cons, List.mem_cons, not_or] at h
    have hb : (k == k0) = false := by simpa using h.1
    simp only [JSONObject.get, List.lookup, hb]
    exact ih h.2

theorem get_mergeObject (src : JSONObject) (hs : (src.map Prod.fst).Nodup) (dst : JSONObject)
    (k : String) :
    JSONObject.get (mergeObject dst src) k =
      match JSONObject.get dst k, JSONObject.get src k with
      | some dv, some sv => some (mergeValue dv sv)
      | some dv, none => some dv
      | none, sv => sv := by
  induction src generalizing dst with
  | nil =>
    simp only [mergeObject, JSONObject.get, List.lookup]
    cases List.lookup k dst <;> rfl
  | cons a rest ih =>
    obtain ⟨k0, v0⟩ := a
    simp only [List.map_cons, List.nodup_cons] at hs
    rw [mergeObject, ih hs.2]
    by_cases hk : k = k0
    · subst hk
      have hrest : JSONObject.get rest k = none := get_eq_none_of_not_mem rest k hs.1
      have hsrc : JSONObject.get ((k, v0) :: rest) k = some v0 := by
        simp [JSONObject.get, List.lookup]
      rw [hrest, hsrc]
      cases hd : JSONObject.get dst k with
      | none => simp only [get_set_self]
      | some dv => simp only [get_set_self]
    · have hsrc : JSONObject.get ((k0, v0) :: rest) k = JSONObject.get rest k := by
        have hb : (k == k0) = false := by simpa using hk
        simp [JSONObject.get, List.lookup, hb]
      rw [hsrc]
      have hdst : ∀ w, JSONObject.get (JSONObject.set dst k0 w) k = JSONObject.get dst k :=
        fun w => get_set_other dst k0 k w (fun e => hk e.symm)
      cases hd : JSONObject.get dst k0 with
      | none => simp only [hdst]
      | some dv => simp only [hdst]

theorem mergeValue_eq (pv sv : JSONValue) :
    some (mergeValue pv sv) =
      match some pv, some sv with
      | some (JSONValue.object d), some (JSONValue.object s) =>
        some (JSONValue.object (mergeObject d s))
      | some pv, _ => some pv
      | none, sv => sv := by
  cases pv <;> cases sv <;> simp [mergeValue]

theorem mergeAndUpdate_of_merge (env : Env) (stored : Option String) (patch profile merged : JSONObject)
    (events : List LocalEvent)
    (hmerge : env.mergoMap patch profile = .ok merged)
    (hdec : (env.jsonpbUnmarshalString (env.jsonMarshal merged).1).2 = none) :
    mergeAndUpdate env stored patch profile events =
      ⟨Outcome.returned
          (UpdateProfile env stored (env.jsonpbUnmarshalString (env.jsonMarshal merged).1).1).err,
        (UpdateProfile env stored (env.jsonpbUnmarshalString (env.jsonMarshal merged).1).1).stored,
        events ++ [LocalEvent.mergoMap] ++
          (UpdateProfile env stored
            (env.jsonpbUnmarshalString (env.jsonMarshal merged).1).1).events⟩ := by
  simp only [mergeAndUpdate, hmerge, hdec]

/-- Claim C11: the merge step, with `mergo.Map` modelled as `mergeObject`,
yields the document in which a key of the patch keeps the value of the patch,
a key present only in the stored document gets the stored value, and a key
that holds nested objects in both gets their recursive merge; the patch with
name `X` against the stored name `Old` and location `Y` gives name `X` and
location `Y`; and the profile passed to UpdateProfile is the decoding of the
serialized merged document. -/
theorem PatchProfile_merge (env : Env) (stored : Option String) (patch profile : JSONObject)
    (events : List LocalEvent)
    (hkeys : (profile.map Prod.fst).Nodup)
    (hmerge : env.mergoMap patch profile = .ok (mergeObject patch profile))
    (hdec : (env.jsonpbUnmarshalString (env.jsonMarshal (mergeObject patch profile)).1).2 = none) :
    (∀ k, JSONObject.get (mergeObject patch profile) k =
      match JSONObject.get patch k, JSONObject.get profile k with
      | some (JSONValue.object d), some (JSONValue.object s) =>
        some (JSONValue.object (mergeObject d s))
      | some pv, _ => some pv
      | none, sv => sv) ∧
    mergeObject [("name", JSONValue.string "X")]
        [("name", JSONValue.string "Old"), ("location", JSONValue.string "Y")] =
      [("name", JSONValue.string "X"), ("location", JSONValue.string "Y")] ∧
    mergeAndUpdate env stored patch profile events =
      ⟨Outcome.returned
          (UpdateProfile env stored
            (env.jsonpbUnmarshalString (env.jsonMarshal (mergeObject patch profile)).1).1).err,
        (UpdateProfile env stored
            (env.jsonpbUnmarshalString (env.jsonMarshal (mergeObject patch profile)).1).1).stored,
        events ++ [LocalEvent.mergoMap] ++
          (UpdateProfile env stored
            (env.jsonpbUnmarshalString
              (env.jsonMarshal (mergeObject patch profile)).1).1).events⟩ := by
  refine ⟨fun k => ?_, rfl, mergeAndUpdate_of_merge env stored patch profile _ events hmerge hdec⟩
  rw [get_mergeObject profile hkeys patch k]
  cases hp : JSONObject.get patch k with
  | none => cases JSONObject.get profile k <;> rfl
  | some pv =>
    cases hs : JSONObject.get profile k with
    | none => cases pv <;> rfl
    | some sv => exact mergeValue_eq pv sv

/-- Claim C11 at a sample: the patch with name `X`, applied to the stored
document with name `Old` and location `Y`, writes the profile with name `X`
and location `Y`. -/
theorem PatchProfile_merge_witness :
    (PatchProfile mergeEnv (some "stored") "open failed" [("name", JSONValue.string "X")]).events =
      [LocalEvent.mergoMap, LocalEvent.create, LocalEvent.writeString "name: X"] ∧
    mergeAndUpdate mergeEnv (some "stored") [("name", JSONValue.string "X")]
        [("name", JSONValue.string "Old"), ("location", JSONValue.string "Y")] [] =
      ⟨Outcome.returned
          (UpdateProfile mergeEnv (some "stored") { name := "X", location := "Y" }).err,
        (UpdateProfile mergeEnv (some "stored") { name := "X", location := "Y" }).stored,
        [LocalEvent.mergoMap] ++
          (UpdateProfile mergeEnv (some "stored") { name := "X", location := "Y" }).events⟩ :=
  ⟨by decide,
    (PatchProfile_merge mergeEnv (some "stored") [("name", JSONValue.string "X")]
      [("name", JSONValue.string "Old"), ("location", JSONValue.string "Y")] []
      (by decide) rfl rfl).2.2⟩

/-- Claim C12: in PatchProfile, when the patch and the stored document hold
different boolean `moderator` values and the moderator registration called for
the patch value returns an error, PatchProfile returns that same error, its
only side effect is that call (no merge, no file creation, no write), and the
profile file is as before. -/
theorem PatchProfile_moderator_error (env : Env) (file openErr : String)
    (patch profile : JSONObject) (patchBool storedBool : Bool) (e : String)
    (hdec : env.jsonDecode file = .ok (JSONValue.object profile))
    (hp : JSONObject.get patch "moderator" = some (JSONValue.bool patchBool))
    (hs : JSONObject.get profile "moderator" = some (JSONValue.bool storedBool))
    (hne : patchBool ≠ storedBool)
    (herr : (if patchBool then env.SetSelfAsModerator else env.RemoveSelfAsModerator) = some e) :
    (PatchProfile env (some file) openErr patch).outcome = Outcome.returned (some e) ∧
    (PatchProfile env (some file) openErr patch).stored = some file ∧
    (PatchProfile env (some file) openErr patch).events =
      [if patchBool then LocalEvent.setSelfAsModerator else LocalEvent.removeSelfAsModerator] ∧
    LocalEvent.mergoMap ∉ (PatchProfile env (some file) openErr patch).events ∧
    LocalEvent.create ∉ (PatchProfile env (some file) openErr patch).events ∧
    ∀ out, LocalEvent.writeString out ∉ (PatchProfile env (some file) openErr patch).events := by
  have hF := PatchProfile_of_bools env file openErr patch profile patchBool storedBool hdec hp hs
  cases patchBool
  · have hsb : storedBool = true := by cases storedBool <;> simp_all
    subst hsb
    simp only [Bool.false_eq_true, if_false] at herr
    simp only [Bool.false_and, Bool.false_eq_true, if_false, Bool.not_false, Bool.true_and,
      Bool.false_bne, if_true, herr] at hF
    rw [hF]
    simp
  · have hsb : storedBool = false := by cases storedBool <;> simp_all
    subst hsb
    simp only [if_true] at herr
    simp only [Bool.true_and, Bool.true_bne, Bool.not_false, if_true, herr] at hF
    rw [hF]
    simp

/-- Claim C12 at a sample: with a failing registration, the patch with
`moderator` true against the stored `moderator` false returns the registration
error and leaves the file as it was. -/
theorem PatchProfile_moderator_error_witness :
    (PatchProfile failingModeratorEnv sampleFile "open failed"
        [("moderator", JSONValue.bool true)]).outcome =
      Outcome.returned (some "moderator registration failed") ∧
    (PatchProfile failingModeratorEnv sampleFile "open failed"
        [("moderator", JSONValue.bool true)]).stored = sampleFile :=
  have h := PatchProfile_moderator_error failingModeratorEnv "name: alice, moderator: false"
    "open failed" [("moderator", JSONValue.bool true)]
    [("name", JSONValue.string "alice"), ("moderator", JSONValue.bool false)] true false
    "moderator registration failed" rfl rfl rfl (by decide) rfl
  ⟨h.1, h.2.1⟩

/-! ### UpdateProfile, GetProfile, updateProfileCounts -/

theorem utf8ByteSize_go_append (l₁ l₂ : List Char) :
    String.utf8ByteSize.go (l₁ ++ l₂) = String.utf8ByteSize.go l₁ + String.utf8ByteSize.go l₂ := by
  induction l₁ with
  | nil => simp [String.utf8ByteSize.go]
  | cons c cs ih =>
    show String.utf8ByteSize.go (cs ++ l₂) + c.utf8Size =
      (String.utf8ByteSize.go cs + c.utf8Size) + String.utf8ByteSize.go l₂
    rw [ih]
    omega

theorem utf8Size_hexDigit : ∀ n, n < 16 → (hexDigit n).utf8Size = 1 := by
  decide

theorem len_hex (b : Bytes) : len (hex.EncodeToString b) = 2 * b.length := by
  show String.utf8ByteSize.go
    (b.flatMap fun x => [hexDigit (x.toNat / 16), hexDigit (x.toNat % 16)]) = _
  induction b with
  | nil => rfl
  | cons x xs ih =>
    rw [List.flatMap_cons, utf8ByteSize_go_append, ih]
    have hx : x.toNat < 256 := x.toNat_lt
    have h1 := utf8Size_hexDigit (x.toNat / 16) (by omega)
    have h2 := utf8Size_hexDigit (x.toNat % 16) (by omega)
    simp only [String.utf8ByteSize.go, h1, h2, List.length_cons]
    omega

theorem UpdateProfile_of_key_error (env : Env) (stored : Option String) (profile : Profile)
    (e : String) (hkey : env.ECPubKey = .error e) :
    UpdateProfile env stored profile = ⟨some e, profile, stored, []⟩ := by
  simp only [UpdateProfile, hkey]

theorem UpdateProfile_of_invalid (env : Env) (stored : Option String) (profile : Profile)
    (k : Bytes) (e : String) (hkey : env.ECPubKey = .ok k)
    (hval : ValidateProfile env.limits env.FromB58String profile = some e) :
    UpdateProfile env stored profile = ⟨some e, profile, stored, []⟩ := by
  simp only [UpdateProfile, hkey, hval]

theorem UpdateProfile_of_valid (env : Env) (stored : Option String) (profile : Profile)
    (k : Bytes) (hkey : env.ECPubKey = .ok k)
    (hval : ValidateProfile env.limits env.FromB58String profile = none) :
    UpdateProfile env stored profile =
      match env.jsonpbMarshalToString (stamped env k profile) with
      | .error e => ⟨some e, stamped env k profile, stored, []⟩
      | .ok out =>
        match env.osCreate with
        | some e => ⟨some e, stamped env k profile, stored, [LocalEvent.create]⟩
        | none =>
          match (env.WriteString out).2 with
          | some e =>
            ⟨some e, stamped env k profile, some (env.WriteString out).1,
              [LocalEvent.create, LocalEvent.writeString out]⟩
          | none =>
            ⟨none, stamped env k profile, some (env.WriteString out).1,
              [LocalEvent.create, LocalEvent.writeString out]⟩ := by
  have hst : ({ (match ({ profile with bitcoinPubkey := hex.EncodeToString k } :
        Profile).moderatorInfo with
      | some m =>
        { ({ profile with bitcoinPubkey := hex.EncodeToString k } : Profile) with
          moderatorInfo := some { m with acceptedCurrency := env.ToUpper env.CurrencyCode } }
      | none => ({ profile with bitcoinPubkey := hex.EncodeToString k } : Profile)) with
      peerID := env.IdentityPretty } : Profile) = stamped env k profile := by
    cases profile with
    | mk a1 a2 a3 a4 a5 a6 a7 a8 a9 a10 a11 a12 a13 a14 =>
      cases a9 <;> rfl
  simp only [UpdateProfile, hkey, hval]
  rw [hst]

theorem UpdateProfile_success (env : Env) (stored : Option String) (profile : Profile)
    (hok : (UpdateProfile env stored profile).err = none) :
    ∃ k out, env.ECPubKey = .ok k ∧
      ValidateProfile env.limits env.FromB58String profile = none ∧
      env.jsonpbMarshalToString (stamped env k profile) = .ok out ∧
      env.osCreate = none ∧ (env.WriteString out).2 = none ∧
      UpdateProfile env stored profile =
        ⟨none, stamped env k profile, some (env.WriteString out).1,
          [LocalEvent.create, LocalEvent.writeString out]⟩ := by
  cases hkey : env.ECPubKey with
  | error e =>
    rw [UpdateProfile_of_key_error env stored profile e hkey] at hok
    cases hok
  | ok k =>
    cases hval : ValidateProfile env.limits env.FromB58String profile with
    | some e =>
      rw [UpdateProfile_of_invalid env stored profile k e hkey hval] at hok
      cases hok
    | none =>
      have hF := UpdateProfile_of_valid env stored profile k hkey hval
      rw [hF] at hok
      cases hm : env.jsonpbMarshalToString (stamped env k profile) with
      | error e =>
        rw [hm] at hok
        cases hok
      | ok out =>
        rw [hm] at hok hF
        cases hc : env.osCreate with
        | some e =>
          rw [hc] at hok
          cases hok
        | none =>
          rw [hc] at hok hF
          cases hw : (env.WriteString out).2 with
          | some e =>
            simp only [hw] at hok
            cases hok
          | none =>
            simp only [hw] at hF
            exact ⟨k, out, rfl, rfl, hm, rfl, hw, hF⟩

/-- Claim C13: when UpdateProfile succeeds, the text it writes to the created
profile file is the serialization of the input profile with `bitcoinPubkey`
replaced by the hexadecimal rendering of the wallet key, `peerID` replaced by
the local identity and, only when `moderatorInfo` is set, `acceptedCurrency`
replaced by the upper-cased wallet currency code, every other field being that
of the input (`stamped`). When ValidateProfile fails, UpdateProfile returns an
error, creates and writes nothing and leaves the file as it was; the error is
the validation error whenever the wallet yields its key. -/
theorem UpdateProfile_persists (env : Env) (stored : Option String) (profile : Profile) :
    ((UpdateProfile env stored profile).err = none →
      ∃ k out, env.ECPubKey = .ok k ∧
        env.jsonpbMarshalToString (stamped env k profile) = .ok out ∧
        (env.WriteString out).2 = none ∧
        (UpdateProfile env stored profile).events =
          [LocalEvent.create, LocalEvent.writeString out] ∧
        (UpdateProfile env stored profile).stored = some (env.WriteString out).1 ∧
        (UpdateProfile env stored profile).profile = stamped env k profile) ∧
    (∀ m, (stamped env m profile).handle = profile.handle ∧
      (stamped env m profile).name = profile.name ∧
      (stamped env m profile).location = profile.location ∧
      (stamped env m profile).about = profile.about ∧
      (stamped env m profile).shortDescription = profile.shortDescription ∧
      (stamped env m profile).moderator = profile.moderator ∧
      (stamped env m profile).contactInfo = profile.contactInfo ∧
      (stamped env m profile).avatarHashes = profile.avatarHashes ∧
      (stamped env m profile).headerHashes = profile.headerHashes ∧
      (stamped env m profile).stats = profile.stats ∧
      (stamped env m profile).lastModified = profile.lastModified ∧
      (stamped env m profile).bitcoinPubkey = hex.EncodeToString m ∧
      (stamped env m profile).peerID = env.IdentityPretty ∧
      (profile.moderatorInfo = none → (stamped env m profile).moderatorInfo = none) ∧
      (∀ mi, profile.moderatorInfo = some mi →
        (stamped env m profile).moderatorInfo =
          some { mi with acceptedCurrency := env.ToUpper env.CurrencyCode })) ∧
    (∀ e, ValidateProfile env.limits env.FromB58String profile = some e →
      (UpdateProfile env stored profile).err ≠ none ∧
      (UpdateProfile env stored profile).events = [] ∧
      (UpdateProfile env stored profile).stored = stored ∧
      ∀ k, env.ECPubKey = .ok k → (UpdateProfile env stored profile).err = some e) := by
  refine ⟨fun hok => ?_, fun m => ?_, fun e hval => ?_⟩
  · obtain ⟨k, out, hkey, _, hm, _, hw, hF⟩ := UpdateProfile_success env stored profile hok
    exact ⟨k, out, hkey, hm, hw, by rw [hF], by rw [hF], by rw [hF]⟩
  · refine ⟨rfl, rfl, rfl, rfl, rfl, rfl, rfl, rfl, rfl, rfl, rfl, rfl, rfl, fun h => ?_,
      fun mi h => ?_⟩
    · simp [stamped, h]
    · simp [stamped, h]
  · cases hkey : env.ECPubKey with
    | error e' =>
      rw [UpdateProfile_of_key_error env stored profile e' hkey]
      exact ⟨by simp, rfl, rfl, fun k hk => by cases hk⟩
    | ok k =>
      rw [UpdateProfile_of_invalid env stored profile k e hkey hval]
      exact ⟨by simp, rfl, rfl, fun _ _ => rfl⟩

/-- Claim C13 at a sample: the write of the named profile succeeds on the
sample node and persists the stamped profile. -/
theorem UpdateProfile_persists_witness :
    (UpdateProfile sampleEnv none namedProfile).err = none ∧
    ∃ k out, sampleEnv.ECPubKey = .ok k ∧
      sampleEnv.jsonpbMarshalToString (stamped sampleEnv k namedProfile) = .ok out ∧
      (sampleEnv.WriteString out).2 = none ∧
      (UpdateProfile sampleEnv none namedProfile).events =
        [LocalEvent.create, LocalEvent.writeString out] ∧
      (UpdateProfile sampleEnv none namedProfile).stored = some (sampleEnv.WriteString out).1 ∧
      (UpdateProfile sampleEnv none namedProfile).profile = stamped sampleEnv k namedProfile :=
  ⟨by decide, (UpdateProfile_persists sampleEnv none namedProfile).1 (by decide)⟩

/-- Claim C14: for a profile that passes ValidateProfile, when the wallet
yields its key, the serialization, the file creation and the write succeed,
the write stores the whole text, and the decoder inverts the serializer on the
written profile: UpdateProfile succeeds, the profile behind its pointer is the
written (stamped) profile, and GetProfile on the file it leaves returns that
profile, in every field, with no error. -/
theorem UpdateProfile_then_GetProfile (env : Env) (stored : Option String) (profile : Profile)
    (k : Bytes) (out : String)
    (hvalid : ValidateProfile env.limits env.FromB58String profile = none)
    (hkey : env.ECPubKey = .ok k)
    (hmarshal : env.jsonpbMarshalToString (stamped env k profile) = .ok out)
    (hcreate : env.osCreate = none)
    (hwrite : env.WriteString out = (out, none))
    (hcodec : env.jsonpbUnmarshalString out = (stamped env k profile, none)) :
    (UpdateProfile env stored profile).err = none ∧
    (UpdateProfile env stored profile).profile = stamped env k profile ∧
    GetProfile env (UpdateProfile env stored profile).stored =
      ((UpdateProfile env stored profile).profile, none) := by
  have hF := UpdateProfile_of_valid env stored profile k hkey hvalid
  simp only [hmarshal, hcreate, hwrite] at hF
  rw [hF]
  exact ⟨rfl, rfl, by simp only [GetProfile, hcodec]⟩

/-- Claim C14 at a sample: on the node whose decoder inverts its serializer,
the named profile is written and read back. -/
theorem UpdateProfile_then_GetProfile_witness :
    GetProfile roundTripEnv (UpdateProfile roundTripEnv none namedProfile).stored =
      ((UpdateProfile roundTripEnv none namedProfile).profile, none) :=
  (UpdateProfile_then_GetProfile roundTripEnv none namedProfile (List.replicate 33 2)
    "name: alice" (by decide) rfl rfl rfl rfl rfl).2.2

theorem uint32_of_range (x : Int) (h0 : 0 ≤ x) (h1 : x < 4294967296) : (uint32 x : Int) = x := by
  unfold uint32
  rw [Int.emod_eq_of_lt h0 h1]
  exact Int.toNat_of_nonneg h0

/-- Claim C15: updateProfileCounts returns no error and writes nothing when
the profile file does not exist. Otherwise, when the file is read and decoded
and the clock reading converts to a timestamp, the profile it passes to
UpdateProfile is the stored profile with the three counts of stats set to the
counts of the collaborators (converted to `uint32`, which leaves a count below
`2 ^ 32` as it is) and `lastModified` set to the timestamp of the current
time; the rating is that of the stored stats, or zero in the stats created
when absent, and every other field is unchanged. -/
theorem updateProfileCounts_effect (env : Env) (now : Time) (readErr : Option String)
    (file : String) (p : Profile) (ts : Int)
    (hdecode : env.jsonpbUnmarshalString file = (p, none))
    (hts : env.TimestampProto now = .ok ts) :
    (updateProfileCounts env now none readErr).err = none ∧
    (updateProfileCounts env now none readErr).events = [] ∧
    (updateProfileCounts env now none readErr).stored = none ∧
    updateProfileCounts env now (some file) none =
      UpdateProfile env (some file)
        { p with
          stats := some
            { listingCount := uint32 env.GetListingCount
              followerCount := uint32 env.FollowersCount
              followingCount := uint32 env.FollowingCount
              averageRating :=
                match p.stats with
                | some s => s.averageRating
                | none => GoFloat32.zero }
          lastModified := some ts } ∧
    ∀ x : Int, 0 ≤ x → x < 4294967296 → (uint32 x : Int) = x := by
  refine ⟨rfl, rfl, rfl, ?_, uint32_of_range⟩
  simp only [updateProfileCounts, hdecode, appendCountsToProfile, hts]
  cases p.stats <;> rfl

/-- Claim C15 at a sample: on the sample node the counts 3, 2 and 1 and the
time 1000 are put on the stored profile before it is written. -/
theorem updateProfileCounts_effect_witness :
    updateProfileCounts sampleEnv 1000 (some sampleDocument) none =
      UpdateProfile sampleEnv (some sampleDocument)
        { name := "alice",
          stats := some { listingCount := 3, followerCount := 2, followingCount := 1 },
          lastModified := some 1000 } :=
  (updateProfileCounts_effect sampleEnv 1000 none sampleDocument namedProfile 1000 rfl rfl).2.2.2.1

theorem moderatorInfoOk_stamped (L : Limits) (m : Option ModeratorInfo) (c : String) :
    ModeratorInfoOk L (m.map fun x => { x with acceptedCurrency := c }) ↔ ModeratorInfoOk L m := by
  cases m <;> rfl

theorem validateProfile_stamped (env : Env) (k : Bytes) (profile : Profile)
    (hlen : k.length = 33)
    (hval : ValidateProfile env.limits env.FromB58String profile = none) :
    ValidateProfile env.limits env.FromB58String (stamped env k profile) = none := by
  rw [validateProfile_none_iff] at hval ⊢
  obtain ⟨⟨c1, c2, c3, c4, c5, c6, c7, c8, c9, c10, c11, _⟩, cs⟩ := hval
  refine ⟨⟨c1, c2, c3, c4, c5, c6, c7, c8, ?_, c10, c11, ?_⟩, cs⟩
  · exact (moderatorInfoOk_stamped env.limits profile.moderatorInfo _).2 c9
  · show len (hex.EncodeToString k) ≤ 66
    rw [len_hex, hlen]

/-- Claim C19 fails as stated: on the sample node the write of the named
profile succeeds, while the write of the same profile with an own public key
text of 67 bytes is refused, although that text would be overwritten. -/
theorem UpdateProfile_depends_on_input_key :
    (UpdateProfile sampleEnv none namedProfile).err = none ∧
    longKeyProfile = { namedProfile with bitcoinPubkey := longKeyProfile.bitcoinPubkey } ∧
    (UpdateProfile sampleEnv none longKeyProfile).err =
      some "Bitcoin public key character length is greater than the max of 66" ∧
    (UpdateProfile sampleEnv none longKeyProfile).events = [] := by
  decide

/-- Claim C19, as amended: UpdateProfile applies ValidateProfile to the input
profile, before stamping. With a wallet key of 33 bytes, it succeeds only if
the input itself passes ValidateProfile, so an input whose own `bitcoinPubkey`
is longer than 66 bytes is refused although that value would be overwritten;
and whenever it succeeds, the profile it persists satisfies ValidateProfile. -/
theorem UpdateProfile_validates_input (env : Env) (stored : Option String) (profile : Profile)
    (k : Bytes) (hkey : env.ECPubKey = .ok k) (hlen : k.length = 33) :
    ((UpdateProfile env stored profile).err = none →
      ValidateProfile env.limits env.FromB58String profile = none ∧
      (UpdateProfile env stored profile).profile = stamped env k profile ∧
      ValidateProfile env.limits env.FromB58String (UpdateProfile env stored profile).profile
        = none) ∧
    (66 < len profile.bitcoinPubkey →
      (UpdateProfile env stored profile).err ≠ none ∧
      (UpdateProfile env stored profile).events = []) := by
  constructor
  · intro hok
    obtain ⟨k', out, hkey', hval, _, _, _, hF⟩ := UpdateProfile_success env stored profile hok
    have hk : k' = k := by
      rw [hkey] at hkey'
      exact (Except.ok.inj hkey').symm
    subst hk
    refine ⟨hval, by rw [hF], ?_⟩
    rw [hF]
    exact validateProfile_stamped env k' profile hlen hval
  · intro hlong
    cases hval : ValidateProfile env.limits env.FromB58String profile with
    | none =>
      rw [validateProfile_none_iff] at hval
      have := hval.1.2.2.2.2.2.2.2.2.2.2.2
      omega
    | some e =>
      rw [UpdateProfile_of_invalid env stored profile k e hkey hval]
      exact ⟨by simp, rfl⟩

/-- Claim C19 at a sample: on the sample node, whose wallet key has 33 bytes,
the profile persisted for the named profile satisfies ValidateProfile. -/
theorem UpdateProfile_validates_input_witness :
    sampleEnv.ECPubKey = .ok (List.replicate 33 2) ∧
    ValidateProfile sampleEnv.limits sampleEnv.FromB58String
      (UpdateProfile sampleEnv none namedProfile).profile = none :=
  ⟨rfl, ((UpdateProfile_validates_input sampleEnv none namedProfile (List.replicate 33 2) rfl
    (by decide)).1 (by decide)).2.2⟩

/-! ### FetchProfile: error paths -/

/-- Claim C16, the code at the failing input: when the collaborator returns
zero bytes together with no error, the fetch step returns the empty profile
and no error, for the full resolution and for the direct fetch alike. In the
other cases of the claim it does return the error: the one of the
collaborator, or the one of the decoder on a non-empty answer. -/
theorem fetch_zero_bytes_no_error (env : Env) (peerId root : String) (hroot : root ≠ "")
    (hres : env.ResolveThenCat (env.pathJoin peerId "profile") = ("", none))
    (hcat : env.Cat (env.pathJoin root "profile") = ("", none)) :
    (fetch env peerId "").1 = ({}, none) ∧
    (fetch env peerId root).1 = ({}, none) ∧
    (∀ env' : Env, ∀ doc e, env'.ResolveThenCat (env'.pathJoin peerId "profile") = (doc, some e) →
      (fetch env' peerId "").1 = ({}, some e)) ∧
    (∀ env' : Env, ∀ doc e, env'.Cat (env'.pathJoin root "profile") = (doc, some e) →
      (fetch env' peerId root).1 = ({}, some e)) ∧
    (∀ env' : Env, ∀ doc e pro, len doc ≠ 0 →
      env'.ResolveThenCat (env'.pathJoin peerId "profile") = (doc, none) →
      env'.jsonpbUnmarshalString doc = (pro, some e) → (fetch env' peerId "").1.2 = some e) ∧
    (∀ env' : Env, ∀ doc e pro, len doc ≠ 0 →
      env'.Cat (env'.pathJoin root "profile") = (doc, none) →
      env'.jsonpbUnmarshalString doc = (pro, some e) →
      (fetch env' peerId root).1.2 = some e) := by
  have hb : (root == "") = false := by simpa using hroot
  have hz : len "" = 0 := by decide
  refine ⟨?_, ?_, ?_, ?_, ?_, ?_⟩
  · simp [fetch, hres, hz]
  · simp [fetch, hb, hcat, hz]
  · intro env' doc e h
    simp [fetch, h]
  · intro env' doc e h
    simp [fetch, hb, h]
  · intro env' doc e pro hl h hj
    simp [fetch, h, hl, hj]
  · intro env' doc e pro hl h hj
    simp [fetch, hb, h, hl, hj]

/-- Claim C16 at a sample: the content network of the sample returns zero
bytes and no error; the fetch step returns no error, and the error that
FetchProfile then returns is the one of ValidateProfile on the empty
profile. -/
theorem fetch_zero_bytes_no_error_witness :
    (fetch silentEnv "QmPeer" "").1 = ({}, none) ∧
    (fetch silentEnv "QmPeer" "QmOld").1 = ({}, none) ∧
    (FetchProfile silentEnv emptyStore 1000 "QmPeer" false).err =
      some "Profile name not set" :=
  have h := fetch_zero_bytes_no_error silentEnv "QmPeer" "QmOld" (by decide) rfl rfl
  ⟨h.1, h.2.1, by decide⟩

/-- Claim C17: with `useCache = true`, when the value stored for the peer does
not decode as a pointer record, or decodes to a record whose content path is
not a valid path, FetchProfile returns that error and the empty profile; its
only call is the `Get` (no resolution, no direct fetch, no `Put`), and it
starts no goroutine. -/
theorem FetchProfile_malformed_record (env : Env) (d : Datastore) (now : Time) (peerId : String)
    (val : Bytes) (e : String)
    (hget : d (recordKey env peerId) = some val)
    (hbad : env.protoUnmarshal val = .error e ∨
      ∃ entry, env.protoUnmarshal val = .ok entry ∧ env.ParsePath entry.value = .error e) :
    FetchProfile env d now peerId true =
      ⟨{}, some e, [Event.dsGet (recordKey env peerId)], []⟩ ∧
    (∀ d' now', (runTasks env peerId
      ((FetchProfile env d now peerId true).tasks.map (·, now')) d').1 = d') := by
  unfold recordKey at hget
  have hF : FetchProfile env d now peerId true =
      ⟨{}, some e, [Event.dsGet (recordKey env peerId)], []⟩ := by
    rcases hbad with h | ⟨entry, h1, h2⟩
    · simp only [FetchProfile, recordKey, if_true, hget, h]
    · simp only [FetchProfile, recordKey, if_true, hget, h1, h2]
  refine ⟨hF, fun d' now' => ?_⟩
  rw [hF]
  rfl

/-- Claim C17 at a sample: three bytes without a separator are stored for the
peer; the call returns the decoding error after the `Get` alone. -/
theorem FetchProfile_malformed_record_witness :
    FetchProfile sampleEnv garbageStore 1000 "QmPeer" true =
      ⟨{}, some "proto: required field not set", [Event.dsGet sampleKey], []⟩ :=
  (FetchProfile_malformed_record sampleEnv garbageStore 1000 "QmPeer" [1, 2, 3]
    "proto: required field not set" (by decide) (Or.inl rfl)).1

theorem validateAndStamp_invalid (env : Env) (pro : Profile) (ra : Bool) (val : Option Bytes)
    (events : List Event) (tasks : List Task) (e : String)
    (hval : ValidateProfile env.limits env.FromB58String pro = some e) :
    validateAndStamp env pro ra val events tasks = ⟨{}, some e, events, tasks⟩ := by
  unfold validateAndStamp
  rw [hval]

/-- Claim C18 fails as stated: a fresh record is cached and the profile
fetched at its root has no name; FetchProfile returns the validation error
and the empty profile, the only goroutine started is the discarded
resolution, and after it has run the record is the one stored before, with
its validity not extended. -/
theorem invalid_profile_is_not_stamped :
    (FetchProfile namelessEnv oldStore 400 "QmPeer" true).err = some "Profile name not set" ∧
    (FetchProfile namelessEnv oldStore 400 "QmPeer" true).profile = {} ∧
    (FetchProfile namelessEnv oldStore 400 "QmPeer" true).tasks = [Task.prewarm] ∧
    (runTasks namelessEnv "QmPeer"
        ((FetchProfile namelessEnv oldStore 400 "QmPeer" true).tasks.map (·, 1000)) oldStore).2 =
      [Event.resolveThenCat "QmPeer/profile"] ∧
    (runTasks namelessEnv "QmPeer"
        ((FetchProfile namelessEnv oldStore 400 "QmPeer" true).tasks.map (·, 1000)) oldStore).1
      sampleKey = some oldRecordBytes := by
  decide

/-- Claim C18, as amended: when the profile obtained by the synchronous fetch
fails ValidateProfile, FetchProfile returns the validation error and the
empty profile, and the stamping goroutine is not started, in every flow (no
cache, no record, stale record, fresh record): the only goroutine is the
discarded resolution of the fresh-record flow, started before the validation,
which leaves the datastore as it is. -/
theorem FetchProfile_invalid_profile (env : Env) (d : Datastore) (now : Time)
    (peerId root : String) (pro : Profile) (e : String)
    (hpro : (fetch env peerId root).1 = (pro, none))
    (hinv : ValidateProfile env.limits env.FromB58String pro = some e) :
    (root = "" →
      FetchProfile env d now peerId false = ⟨{}, some e, (fetch env peerId "").2, []⟩) ∧
    (root = "" → d (recordKey env peerId) = none →
      FetchProfile env d now peerId true =
        ⟨{}, some e, Event.dsGet (recordKey env peerId) :: (fetch env peerId "").2, []⟩) ∧
    (∀ val entry p, root = "" → d (recordKey env peerId) = some val →
      env.protoUnmarshal val = .ok entry → env.ParsePath entry.value = .ok p →
      Stale env entry now →
      FetchProfile env d now peerId true =
        ⟨{}, some e, Event.dsGet (recordKey env peerId) :: (fetch env peerId "").2, []⟩) ∧
    (∀ val entry p, root = strings.TrimPrefix p "/ipfs/" → d (recordKey env peerId) = some val →
      env.protoUnmarshal val = .ok entry → env.ParsePath entry.value = .ok p →
      ¬ Stale env entry now →
      FetchProfile env d now peerId true =
        ⟨{}, some e, Event.dsGet (recordKey env peerId) :: (fetch env peerId root).2,
          [Task.prewarm]⟩) ∧
    (∀ d' now', runTask env peerId Task.prewarm d' now' =
      (d', [Event.resolveThenCat (env.pathJoin peerId "profile")])) := by
  have h1 : (fetch env peerId root).1.1 = pro := by rw [hpro]
  have h2 : (fetch env peerId root).1.2 = none := by rw [hpro]
  refine ⟨fun hr => ?_, fun hr hget => ?_, fun val entry p hr hget hdec hpath hst => ?_,
    fun val entry p hr hget hdec hpath hfr => ?_, fun d' now' => ?_⟩
  · subst hr
    rw [fetchProfile_without_cache_unfold, h2]
    simp only []
    rw [h1, validateAndStamp_invalid env pro _ _ _ _ e hinv]
  · subst hr
    rw [FetchProfile_of_no_record env d now peerId hget, h2]
    simp only []
    rw [h1, validateAndStamp_invalid env pro _ _ _ _ e hinv]
  · subst hr
    rw [FetchProfile_of_stale env d now peerId val entry p hget hdec hpath hst, h2]
    simp only []
    rw [h1, validateAndStamp_invalid env pro _ _ _ _ e hinv]
  · subst hr
    rw [FetchProfile_of_fresh env d now peerId val entry p hget hdec hpath hfr, h2]
    simp only []
    rw [h1, validateAndStamp_invalid env pro _ _ _ _ e hinv]
  · show (d', (fetch env peerId "").2) = _
    rw [fetch_empty_events]

/-- Claim C18 at a sample: without cache, the profile without a name is
refused and no goroutine is started. -/
theorem FetchProfile_invalid_profile_witness :
    FetchProfile namelessEnv oldStore 1000 "QmPeer" false =
      ⟨{}, some "Profile name not set", [Event.resolveThenCat "QmPeer/profile"], []⟩ :=
  (FetchProfile_invalid_profile namelessEnv oldStore 1000 "QmPeer" "" {} "Profile name not set"
    (by decide) (by decide)).1 rfl

/-! ### ValidateProfile: order of the checks -/

theorem failIf_of_true (c : Bool) (e : String) (h : c = true) : failIf c e = some e := by
  simp [failIf, h]

theorem failIf_of_false (c : Bool) (e : String) (h : c = false) : failIf c e = none := by
  simp [failIf, h]

/-- Claim C20 fails as stated: for a profile with an empty name and a location
longer than `WordMaxCharacters`, the error reported is the one of the empty
name, not the one of the location. -/
theorem empty_name_reported_before_location :
    namelessLongLocation.name = "" ∧
    sampleLimits.WordMaxCharacters < len namelessLongLocation.location ∧
    ValidateProfile sampleLimits sampleFromB58String namelessLongLocation =
      some "Profile name not set" ∧
    ValidateProfile sampleLimits sampleFromB58String namelessLongLocation ≠
      some (fmtErrorf "Location character length is greater than the max of "
        sampleLimits.WordMaxCharacters) := by
  decide

/-- Claim C20, as amended: ValidateProfile reports the first violated
constraint in the order: handle contains `@`; handle cap; name non-empty; caps
on name, location, about and short description; the contactInfo checks; the
moderatorInfo checks, the fixed-fee currency-code cap being the last of them;
the avatar then the header hash group; the `bitcoinPubkey` length; the rating.
In particular an empty name is reported whatever the location is. -/
theorem ValidateProfile_order (L : Limits) (mh : String → Bool) (p : Profile) :
    ('@' ∈ p.handle.data → ValidateProfile L mh p = some "Handle should not contain @") ∧
    (¬ ('@' ∈ p.handle.data) → L.WordMaxCharacters < len p.handle →
      ValidateProfile L mh p =
        some (fmtErrorf "Handle character length is greater than the max of "
          L.WordMaxCharacters)) ∧
    (HandleOk L p → p.name = "" → ValidateProfile L mh p = some "Profile name not set") ∧
    (HandleOk L p → p.name ≠ "" → L.WordMaxCharacters < len p.name →
      ValidateProfile L mh p =
        some (fmtErrorf "Name character length is greater than the max of "
          L.WordMaxCharacters)) ∧
    (HandleOk L p → p.name ≠ "" → len p.name ≤ L.WordMaxCharacters →
      L.WordMaxCharacters < len p.location →
      ValidateProfile L mh p =
        some (fmtErrorf "Location character length is greater than the max of "
          L.WordMaxCharacters)) ∧
    (HandleOk L p → p.name ≠ "" → len p.name ≤ L.WordMaxCharacters →
      len p.location ≤ L.WordMaxCharacters → L.AboutMaxCharacters < len p.about →
      ValidateProfile L mh p =
        some (fmtErrorf "About character length is greater than the max of "
          L.AboutMaxCharacters)) ∧
    (HandleOk L p → p.name ≠ "" → len p.name ≤ L.WordMaxCharacters →
      len p.location ≤ L.WordMaxCharacters → len p.about ≤ L.AboutMaxCharacters →
      L.ShortDescriptionLength < len p.shortDescription →
      ValidateProfile L mh p =
        some (fmtErrorf "Short description character length is greater than the max of "
          L.ShortDescriptionLength)) ∧
    (∀ e, TextsOk L p → validateContactInfo L p.contactInfo = some e →
      ValidateProfile L mh p = some e) ∧
    (∀ e, TextsOk L p → validateContactInfo L p.contactInfo = none →
      validateModeratorInfo L p.moderatorInfo = some e → ValidateProfile L mh p = some e) ∧
    (∀ m, len m.description ≤ L.AboutMaxCharacters →
      len m.termsAndConditions ≤ L.PolicyMaxCharacters → m.languages.length ≤ L.MaxListItems →
      (∀ l ∈ m.languages, len l ≤ L.WordMaxCharacters) →
      validateModeratorInfo L (some m) = validateFee L m.fee) ∧
    (∀ e, TextsOk L p → validateContactInfo L p.contactInfo = none →
      validateModeratorInfo L p.moderatorInfo = none →
      validateImageHashes mh p.avatarHashes = some e → ValidateProfile L mh p = some e) ∧
    (∀ e, TextsOk L p → validateContactInfo L p.contactInfo = none →
      validateModeratorInfo L p.moderatorInfo = none →
      validateImageHashes mh p.avatarHashes = none →
      validateImageHashes mh p.headerHashes = some e → ValidateProfile L mh p = some e) ∧
    (TextsOk L p → validateContactInfo L p.contactInfo = none →
      validateModeratorInfo L p.moderatorInfo = none →
      validateImageHashes mh p.avatarHashes = none →
      validateImageHashes mh p.headerHashes = none → 66 < len p.bitcoinPubkey →
      ValidateProfile L mh p =
        some (fmtErrorf "Bitcoin public key character length is greater than the max of " 66)) ∧
    (TextsOk L p → validateContactInfo L p.contactInfo = none →
      validateModeratorInfo L p.moderatorInfo = none →
      validateImageHashes mh p.avatarHashes = none →
      validateImageHashes mh p.headerHashes = none → len p.bitcoinPubkey ≤ 66 →
      ValidateProfile L mh p = validateStats p.stats) := by
  have hat : ∀ b : Bool, strings.Contains p.handle "@" = b ↔
      (if b then '@' ∈ p.handle.data else ¬ ('@' ∈ p.handle.data)) := by
    intro b
    cases b
    · simpa using contains_at_eq_false p.handle
    · have := contains_at_eq_false p.handle
      simp only [if_true]
      constructor
      · intro h
        by_contra hn
        rw [this.2 hn] at h
        cases h
      · intro h
        cases hc : strings.Contains p.handle "@" with
        | true => rfl
        | false => exact absurd h (this.1 hc)
  have hname : ∀ b : Bool, (len p.name == 0) = b ↔ (if b then p.name = "" else p.name ≠ "") := by
    intro b
    cases b
    · simp [len_eq_zero]
    · simp [len_eq_zero]
  have hsingle : ∀ x : Option String, firstError [x] = x := by
    intro x
    cases x <;> rfl
  have hrest : TextsOk L p → ValidateProfile L mh p =
      firstError [validateContactInfo L p.contactInfo, validateModeratorInfo L p.moderatorInfo,
        validateImageHashes mh p.avatarHashes, validateImageHashes mh p.headerHashes,
        failIf (len p.bitcoinPubkey > 66)
          (fmtErrorf "Bitcoin public key character length is greater than the max of " 66),
        validateStats p.stats] := by
    rintro ⟨⟨h, hl⟩, hn, hnl, hll, hal, hsl⟩
    have h0 := (hat false).2 h
    have h1 := (hname false).2 hn
    have h2 : ¬ L.WordMaxCharacters < len p.handle := by omega
    have h3 : ¬ L.WordMaxCharacters < len p.name := by omega
    have h4 : ¬ L.WordMaxCharacters < len p.location := by omega
    have h5 : ¬ L.AboutMaxCharacters < len p.about := by omega
    have h6 : ¬ L.ShortDescriptionLength < len p.shortDescription := by omega
    simp [ValidateProfile, firstError, failIf, h0, h1, h2, h3, h4, h5, h6]
  refine ⟨?_, ?_, ?_, ?_, ?_, ?_, ?_, ?_, ?_, ?_, ?_, ?_, ?_, ?_⟩
  · intro h
    have h0 := (hat true).2 h
    simp [ValidateProfile, firstError, failIf, h0]
  · intro h hl
    have h0 := (hat false).2 h
    simp [ValidateProfile, firstError, failIf, h0, hl]
  · rintro ⟨h, hl⟩ hn
    have h0 := (hat false).2 h
    have h1 := (hname true).2 hn
    have h2 : ¬ L.WordMaxCharacters < len p.handle := by omega
    simp [ValidateProfile, firstError, failIf, h0, h1, h2]
  · rintro ⟨h, hl⟩ hn hlong
    have h0 := (hat false).2 h
    have h1 := (hname false).2 hn
    have h2 : ¬ L.WordMaxCharacters < len p.handle := by omega
    simp [ValidateProfile, firstError, failIf, h0, h1, h2, hlong]
  · rintro ⟨h, hl⟩ hn hnl hlong
    have h0 := (hat false).2 h
    have h1 := (hname false).2 hn
    have h2 : ¬ L.WordMaxCharacters < len p.handle := by omega
    have h3 : ¬ L.WordMaxCharacters < len p.name := by omega
    simp [ValidateProfile, firstError, failIf, h0, h1, h2, h3, hlong]
  · rintro ⟨h, hl⟩ hn hnl hll hlong
    have h0 := (hat false).2 h
    have h1 := (hname false).2 hn
    have h2 : ¬ L.WordMaxCharacters < len p.handle := by omega
    have h3 : ¬ L.WordMaxCharacters < len p.name := by omega
    have h4 : ¬ L.WordMaxCharacters < len p.location := by omega
    simp [ValidateProfile, firstError, failIf, h0, h1, h2, h3, h4, hlong]
  · rintro ⟨h, hl⟩ hn hnl hll hal hlong
    have h0 := (hat false).2 h
    have h1 := (hname false).2 hn
    have h2 : ¬ L.WordMaxCharacters < len p.handle := by omega
    have h3 : ¬ L.WordMaxCharacters < len p.name := by omega
    have h4 : ¬ L.WordMaxCharacters < len p.location := by omega
    have h5 : ¬ L.AboutMaxCharacters < len p.about := by omega
    simp [ValidateProfile, firstError, failIf, h0, h1, h2, h3, h4, h5, hlong]
  · intro e ht hc
    rw [hrest ht, hc]
    rfl
  · intro e ht hc hm
    rw [hrest ht, hc, hm]
    rfl
  · intro m h1 h2 h3 h4
    have hl := (validateLanguages_eq_none L m.languages).2 h4
    have g1 : ¬ L.AboutMaxCharacters < len m.description := by omega
    have g2 : ¬ L.PolicyMaxCharacters < len m.termsAndConditions := by omega
    have g3 : ¬ L.MaxListItems < m.languages.length := by omega
    simp [validateModeratorInfo, firstError, failIf, g1, g2, g3, hl, hsingle]
  · intro e ht hc hm ha
    rw [hrest ht, hc, hm, ha]
    rfl
  · intro e ht hc hm ha hh
    rw [hrest ht, hc, hm, ha, hh]
    rfl
  · intro ht hc hm ha hh hlong
    rw [hrest ht, hc, hm, ha, hh]
    simp [firstError, failIf, hlong]
  · intro ht hc hm ha hh hshort
    rw [hrest ht, hc, hm, ha, hh]
    have g : ¬ 66 < len p.bitcoinPubkey := by omega
    simp [firstError, failIf, g, hsingle]

/-! ### ValidateProfile: messages and units of the caps -/

theorem len_replicate_a (n : Nat) : len (String.mk (List.replicate n 'a')) = n := by
  show String.utf8ByteSize.go (List.replicate n 'a') = n
  induction n with
  | zero => rfl
  | succ k ih =>
    rw [List.replicate_succ]
    show String.utf8ByteSize.go (List.replicate k 'a') + ('a' : Char).utf8Size = k + 1
    rw [ih]
    rfl

theorem length_le_go (l : List Char) : l.length ≤ String.utf8ByteSize.go l := by
  induction l with
  | nil => exact Nat.le_refl _
  | cons c cs ih =>
    have := Char.utf8Size_pos c
    show cs.length + 1 ≤ String.utf8ByteSize.go cs + c.utf8Size
    omega

theorem length_le_len (s : String) : s.length ≤ len s :=
  length_le_go s.data

theorem utf8Size_of_ascii (c : Char) (h : c.toNat < 128) : c.utf8Size = 1 := by
  have hv : c.val ≤ 127 := by
    rw [UInt32.le_def]
    show c.val.toNat ≤ 127
    have : c.toNat = c.val.toNat := rfl
    omega
  simp [Char.utf8Size, hv]

theorem go_of_ascii (l : List Char) (h : ∀ c ∈ l, c.toNat < 128) :
    String.utf8ByteSize.go l = l.length := by
  induction l with
  | nil => rfl
  | cons c cs ih =>
    have h1 := utf8Size_of_ascii c (h c (List.mem_cons_self c cs))
    have h2 := ih (fun x hx => h x (List.mem_cons_of_mem c hx))
    show String.utf8ByteSize.go cs + c.utf8Size = cs.length + 1
    omega

theorem validateSocial_append (L : Limits) (pre l : List SocialAccount)
    (hpre : validateSocial L pre = none) :
    validateSocial L (pre ++ l) = validateSocial L l := by
  induction pre with
  | nil => rfl
  | cons a rest ih =>
    have h := (validateSocial_eq_none L (a :: rest)).1 hpre
    have ha := h a (List.mem_cons_self a rest)
    have hrest : validateSocial L rest = none :=
      (validateSocial_eq_none L rest).2 (fun s hs => h s (List.mem_cons_of_mem a hs))
    have g1 : ¬ L.WordMaxCharacters < len a.username := by omega
    have g2 : ¬ L.WordMaxCharacters < len a.type := by omega
    have g3 : ¬ L.URLMaxCharacters < len a.proof := by omega
    have hsingle : ∀ x : Option String, firstError [x] = x := by
      intro x
      cases x <;> rfl
    simp only [List.cons_append, validateSocial, failIf, gt_iff_lt, g1, g2, g3, decide_False,
      Bool.false_eq_true, if_false, firstError, hsingle]
    exact ih hrest

theorem validateProfile_of_textsOk (L : Limits) (mh : String → Bool) (p : Profile)
    (ht : TextsOk L p) :
    ValidateProfile L mh p =
      firstError [validateContactInfo L p.contactInfo, validateModeratorInfo L p.moderatorInfo,
        validateImageHashes mh p.avatarHashes, validateImageHashes mh p.headerHashes,
        failIf (len p.bitcoinPubkey > 66)
          (fmtErrorf "Bitcoin public key character length is greater than the max of " 66),
        validateStats p.stats] := by
  obtain ⟨⟨h, hl⟩, hn, hnl, hll, hal, hsl⟩ := ht
  have h0 : strings.Contains p.handle "@" = false := (contains_at_eq_false p.handle).2 h
  have h1 : (len p.name == 0) = false := by simp [len_eq_zero, hn]
  have h2 : ¬ L.WordMaxCharacters < len p.handle := by omega
  have h3 : ¬ L.WordMaxCharacters < len p.name := by omega
  have h4 : ¬ L.WordMaxCharacters < len p.location := by omega
  have h5 : ¬ L.AboutMaxCharacters < len p.about := by omega
  have h6 : ¬ L.ShortDescriptionLength < len p.shortDescription := by omega
  simp [ValidateProfile, firstError, failIf, h0, h1, h2, h3, h4, h5, h6]

/-- Claim C21, the code at the failing input: when the first violation of a
profile is a social proof longer than `URLMaxCharacters`, the cap it is
compared against, the message states `WordMaxCharacters`. -/
theorem social_proof_message_states_word_cap (L : Limits) (mh : String → Bool) (p : Profile)
    (c : ContactInfo) (pre rest : List SocialAccount) (s : SocialAccount)
    (ht : TextsOk L p)
    (hc : p.contactInfo = some c)
    (hweb : len c.website ≤ L.URLMaxCharacters)
    (hmail : len c.email ≤ L.SentenceMaxCharacters)
    (hphone : len c.phoneNumber ≤ L.WordMaxCharacters)
    (hcount : c.social.length ≤ L.MaxListItems)
    (hsocial : c.social = pre ++ s :: rest)
    (hpre : validateSocial L pre = none)
    (huser : len s.username ≤ L.WordMaxCharacters)
    (htype : len s.type ≤ L.WordMaxCharacters)
    (hlong : L.URLMaxCharacters < len s.proof) :
    ValidateProfile L mh p =
      some (fmtErrorf "Social proof character length is greater than the max of "
        L.WordMaxCharacters) := by
  have g1 : ¬ L.URLMaxCharacters < len c.website := by omega
  have g2 : ¬ L.SentenceMaxCharacters < len c.email := by omega
  have g3 : ¬ L.WordMaxCharacters < len c.phoneNumber := by omega
  have g4 : ¬ L.MaxListItems < c.social.length := by omega
  have g5 : ¬ L.WordMaxCharacters < len s.username := by omega
  have g6 : ¬ L.WordMaxCharacters < len s.type := by omega
  have hs : validateSocial L c.social =
      some (fmtErrorf "Social proof character length is greater than the max of "
        L.WordMaxCharacters) := by
    rw [hsocial, validateSocial_append L pre _ hpre]
    simp [validateSocial, firstError, failIf, g5, g6, hlong]
  have hci : validateContactInfo L p.contactInfo =
      some (fmtErrorf "Social proof character length is greater than the max of "
        L.WordMaxCharacters) := by
    rw [hc]
    simp [validateContactInfo, firstError, failIf, g1, g2, g3, g4, hs]
  rw [validateProfile_of_textsOk L mh p ht, hci]
  rfl

/-- Claim C21 at a sample: with the caps 40 for words and 2000 for URLs, a
social proof of 2001 bytes is reported with the limit 40. -/
theorem social_proof_message_states_word_cap_witness :
    sampleLimits.URLMaxCharacters = 2000 ∧
    ValidateProfile sampleLimits sampleFromB58String longProofProfile =
      some "Social proof character length is greater than the max of 40" :=
  ⟨rfl,
    social_proof_message_states_word_cap sampleLimits sampleFromB58String longProofProfile
      { social := [{ type := "web", username := "alice",
                     proof := String.mk (List.replicate 2001 'a') }] }
      [] [] { type := "web", username := "alice", proof := String.mk (List.replicate 2001 'a') }
      ⟨⟨by decide, by decide⟩, by decide, by decide, by decide, by decide, by decide⟩
      rfl (by decide) (by decide) (by decide) (by decide) rfl rfl (by decide) (by decide)
      (by rw [len_replicate_a]; decide)⟩

/-- Claim C22, the code at the failing input: the caps are compared with the
byte length of the text. On a profile that is valid, replacing the name by a
text that has at most `WordMaxCharacters` characters but more bytes than that
gives a profile that is refused, with the message on the character length of
the name. The same unit applies to every capped text: a profile is accepted
only if the handle, name, location, about text, short description, website,
email, phone number, every social username, type and proof, the moderator
description and terms, every moderator language and the fixed-fee currency
code are within their maxima in bytes. A text has at least as many bytes as
characters, and exactly as many when all its characters are below 128. -/
theorem name_within_character_cap_refused (L : Limits) (mh : String → Bool) (p : Profile)
    (t : String)
    (hvalid : ValidateProfile L mh p = none)
    (hchars : t.length ≤ L.WordMaxCharacters)
    (hbytes : L.WordMaxCharacters < len t) :
    ValidateProfile L mh { p with name := t } =
      some (fmtErrorf "Name character length is greater than the max of "
        L.WordMaxCharacters) ∧
    (∀ q : Profile, ValidateProfile L mh q = none →
      len q.handle ≤ L.WordMaxCharacters ∧ len q.name ≤ L.WordMaxCharacters ∧
      len q.location ≤ L.WordMaxCharacters ∧ len q.about ≤ L.AboutMaxCharacters ∧
      len q.shortDescription ≤ L.ShortDescriptionLength ∧
      (∀ c, q.contactInfo = some c →
        len c.website ≤ L.URLMaxCharacters ∧ len c.email ≤ L.SentenceMaxCharacters ∧
        len c.phoneNumber ≤ L.WordMaxCharacters ∧
        ∀ s ∈ c.social, len s.username ≤ L.WordMaxCharacters ∧
          len s.type ≤ L.WordMaxCharacters ∧ len s.proof ≤ L.URLMaxCharacters) ∧
      (∀ m, q.moderatorInfo = some m →
        len m.description ≤ L.AboutMaxCharacters ∧
        len m.termsAndConditions ≤ L.PolicyMaxCharacters ∧
        (∀ l ∈ m.languages, len l ≤ L.WordMaxCharacters) ∧
        ∀ fee fixed, m.fee = some fee → fee.fixedFee = some fixed →
          len fixed.currencyCode ≤ L.WordMaxCharacters)) ∧
    (∀ s : String, s.length ≤ len s) ∧
    (∀ s : String, (∀ c ∈ s.data, c.toNat < 128) → len s = s.length) := by
  refine ⟨?_, fun q hq => ?_, length_le_len, fun s h => go_of_ascii s.data h⟩
  · rw [validateProfile_none_iff] at hvalid
    obtain ⟨⟨c1, _, c3, _⟩, _⟩ := hvalid
    have h0 : strings.Contains p.handle "@" = false := (contains_at_eq_false p.handle).2 c1
    have hne : t ≠ "" := by
      intro h
      have hz := (len_eq_zero t).2 h
      omega
    have h1 : (len t == 0) = false := by simp [len_eq_zero, hne]
    have h2 : ¬ L.WordMaxCharacters < len p.handle := by omega
    simp [ValidateProfile, firstError, failIf, h0, h1, h2, hbytes]
  · rw [validateProfile_none_iff] at hq
    obtain ⟨⟨_, _, c3, c4, c5, c6, c7, c8, c9, _⟩, _⟩ := hq
    refine ⟨c3, c4, c5, c6, c7, fun c hc => ?_, fun m hm => ?_⟩
    · rw [hc] at c8
      exact ⟨c8.1, c8.2.1, c8.2.2.1, c8.2.2.2.2⟩
    · rw [hm] at c9
      refine ⟨c9.1, c9.2.1, c9.2.2.2.1, fun fee fixed hfee hfixed => ?_⟩
      have hf := c9.2.2.2.2
      rw [hfee] at hf
      simp only [FeeOk, hfixed] at hf
      exact hf

/-- Claim C22 at a sample: a name of 40 characters, the sample maximum, takes
80 bytes, and the otherwise valid profile that bears it is refused for the
character length of its name. -/
theorem name_within_character_cap_refused_witness :
    accentedName.length = 40 ∧ len accentedName = 80 ∧
    ValidateProfile sampleLimits sampleFromB58String namedProfile = none ∧
    ValidateProfile sampleLimits sampleFromB58String { namedProfile with name := accentedName } =
      some "Name character length is greater than the max of 40" :=
  ⟨by decide, by decide, by decide,
    (name_within_character_cap_refused sampleLimits sampleFromB58String namedProfile accentedName
      (by decide) (by decide) (by decide)).1⟩

/-! ### GetAPIConfig -/

theorem orMalformed_eq_ok {α : Type} (v : Option α) (rest : α → Except String APIConfig)
    (c : APIConfig) : orMalformed v rest = .ok c ↔ ∃ a, v = some a ∧ rest a = .ok c := by
  cases v with
  | none => simp [orMalformed]
  | some a => simp [orMalformed]

theorem orMalformed_error {α : Type} (v : Option α) (rest : α → Except String APIConfig)
    (h : ∀ a e, rest a = .error e → e = MalformedConfigError) :
    ∀ e, orMalformed v rest = .error e → e = MalformedConfigError := by
  intro e he
  cases v with
  | none =>
    simp only [orMalformed] at he
    exact (Except.error.inj he).symm
  | some a => exact h a e he

theorem asObject_eq_some (v : JSONValue) (m : JSONObject) :
    v.asObject = some m ↔ v = JSONValue.object m := by
  cases v <;> simp [JSONValue.asObject]

theorem asBool_eq_some (v : JSONValue) (b : Bool) : v.asBool = some b ↔ v = JSONValue.bool b := by
  cases v <;> simp [JSONValue.asBool]

theorem asString_eq_some (v : JSONValue) (s : String) :
    v.asString = some s ↔ v = JSONValue.string s := by
  cases v <;> simp [JSONValue.asString]

theorem asArray_eq_some (v : JSONValue) (l : List JSONValue) :
    v.asArray = some l ↔ v = JSONValue.array l := by
  cases v <;> simp [JSONValue.asArray]

theorem appendAllowedIPs_eq_some (items : List JSONValue) (acc l : List String) :
    appendAllowedIPs acc items = some l ↔
      ∃ tail, l = acc ++ tail ∧ items = tail.map JSONValue.string := by
  induction items generalizing acc with
  | nil =>
    simp only [appendAllowedIPs, Option.some.injEq]
    constructor
    · rintro rfl
      exact ⟨[], by simp, rfl⟩
    · rintro ⟨tail, rfl, h⟩
      have : tail = [] := by
        cases tail with
        | nil => rfl
        | cons a t => simp at h
      simp [this]
  | cons ip rest ih =>
    cases hs : ip.asString with
    | none =>
      simp only [appendAllowedIPs, hs]
      constructor
      · intro h
        cases h
      · rintro ⟨tail, _, h⟩
        cases tail with
        | nil => simp at h
        | cons a t =>
          simp only [List.map_cons, List.cons.injEq] at h
          rw [h.1] at hs
          simp [JSONValue.asString] at hs
    | some ipStr =>
      have hip := (asString_eq_some ip ipStr).1 hs
      simp only [appendAllowedIPs, hs, ih]
      constructor
      · rintro ⟨tail, rfl, h⟩
        exact ⟨ipStr :: tail, by simp, by simp [hip, h]⟩
      · rintro ⟨tail, rfl, h⟩
        cases tail with
        | nil => simp at h
        | cons a t =>
          simp only [List.map_cons, List.cons.injEq] at h
          rw [hip] at h
          have ha : ipStr = a := by
            have := h.1
            simpa using this
          subst ha
          exact ⟨t, by simp, h.2⟩

theorem headersOf_eq_some (api : JSONObject) (h : Option JSONObject) :
    headersOf api = some h ↔ HeadersMatch (JSONObject.get api "HTTPHeaders") h := by
  unfold headersOf HeadersMatch
  cases hv : JSONObject.get api "HTTPHeaders" with
  | none => simp [eq_comm]
  | some v => cases v <;> simp [JSONValue.asObject, eq_comm]

theorem corsOf_eq_some (api : JSONObject) (c : Option String) :
    corsOf api = some c ↔ CorsMatch (JSONObject.get api "CORS") c := by
  unfold corsOf CorsMatch
  cases hv : JSONObject.get api "CORS" with
  | none => simp [eq_comm]
  | some v => cases v <;> simp [JSONValue.asString, eq_comm]

theorem getAPIConfig_ok_iff (u : String → JSONValue × Option String) (cfgBytes : String)
    (c : APIConfig) :
    GetAPIConfig u cfgBytes = .ok c ↔ DescribesAPIConfig (u cfgBytes).1 c := by
  constructor
  · intro h
    simp only [GetAPIConfig, orMalformed_eq_ok, asObject_eq_some, asBool_eq_some,
      asString_eq_some, asArray_eq_some, headersOf_eq_some, corsOf_eq_some,
      appendAllowedIPs_eq_some] at h
    obtain ⟨cfg, hcfg, apiIface, hapi, api, hapiObj, headers, hheaders, enabled, hen, eb, henb,
      _, _, ab, hab, ips, hips, ipl, hipl, ipstrs, ⟨tail, htail, hitems⟩, un, hun, us, hus,
      pw, hpw, ps, hps, cors, hcors, ssl, hssl, sb, hsb, cert, hcert, cs, hcs, key, hkey, ks, hks,
      hc⟩ := h
    have hc' := Except.ok.inj hc
    subst hc'
    subst hapiObj henb hipl hus hps hsb hcs hks
    simp only [List.nil_append] at htail
    subst htail
    have hauth : JSONObject.get api "Authenticated" = some (JSONValue.bool ab) := by
      cases hg : JSONObject.get api "Authenticated" with
      | none =>
        rw [hg] at hab
        simp at hab
      | some v =>
        rw [hg] at hab
        simpa using hab
    refine ⟨cfg, api, hcfg, hapi, hen, hauth, hssl, hun, hpw, hcert, hkey, ?_, hheaders, hcors⟩
    rw [hips, hitems]
  · rintro ⟨cfg, api, hcfg, hapi, hen, hauth, hssl, hun, hpw, hcert, hkey, hips, hheaders, hcors⟩
    have hh := (headersOf_eq_some api c.HTTPHeaders).2 hheaders
    have hco := (corsOf_eq_some api c.CORS).2 hcors
    have hl : appendAllowedIPs [] (c.AllowedIPs.map JSONValue.string) = some c.AllowedIPs :=
      (appendAllowedIPs_eq_some _ [] c.AllowedIPs).2 ⟨c.AllowedIPs, by simp, rfl⟩
    simp [GetAPIConfig, orMalformed, hcfg, hapi, JSONValue.asObject, hh, hen, JSONValue.asBool,
      okGuard, hauth, hips, JSONValue.asArray, hl, hun, hpw, JSONValue.asString, hco, hssl, hcert,
      hkey]

theorem getAPIConfig_error (u : String → JSONValue × Option String) (cfgBytes : String) :
    ∀ e, GetAPIConfig u cfgBytes = .error e → e = MalformedConfigError := by
  unfold GetAPIConfig
  repeat' first
    | (refine orMalformed_error _ _ (fun _ => ?_))
    | (intro e he; cases he)

/-- Claim C23: whatever `json.Unmarshal` has decoded, GetAPIConfig returns the
configuration `c` if and only if the decoded value is an object with an object
under `JSON-API` in which `Enabled`, `Authenticated` and `SSL` are the
booleans of `c`, `Username`, `Password`, `SSLCert` and `SSLKey` its strings,
`AllowedIPs` the list of its addresses as strings, in order, `HTTPHeaders` is
absent or null (nil in `c`) or an object (the one in `c`), and `CORS` is
absent or null (nil in `c`) or a string (the one in `c`); every error it
returns is `MalformedConfigError`; and with the `Authenticated` key missing it
returns that error. -/
theorem GetAPIConfig_succeeds_iff (u : String → JSONValue × Option String) (cfgBytes : String) :
    (∀ c, GetAPIConfig u cfgBytes = .ok c ↔ DescribesAPIConfig (u cfgBytes).1 c) ∧
    ((∀ c, ¬ DescribesAPIConfig (u cfgBytes).1 c) →
      GetAPIConfig u cfgBytes = .error MalformedConfigError) ∧
    (∀ cfg api, (u cfgBytes).1 = JSONValue.object cfg →
      JSONObject.get cfg "JSON-API" = some (JSONValue.object api) →
      JSONObject.get api "Authenticated" = none →
      GetAPIConfig u cfgBytes = .error MalformedConfigError) := by
  have hall : (∀ c, ¬ DescribesAPIConfig (u cfgBytes).1 c) →
      GetAPIConfig u cfgBytes = .error MalformedConfigError := by
    intro hno
    cases hr : GetAPIConfig u cfgBytes with
    | error e => rw [getAPIConfig_error u cfgBytes e hr]
    | ok c => exact absurd ((getAPIConfig_ok_iff u cfgBytes c).1 hr) (hno c)
  refine ⟨fun c => getAPIConfig_ok_iff u cfgBytes c, hall, fun cfg api hcfg hapi hmiss => ?_⟩
  apply hall
  rintro c ⟨cfg', api', hcfg', hapi', _, hauth, _⟩
  rw [hcfg] at hcfg'
  have h1 : cfg = cfg' := by
    injection hcfg'
  subst h1
  rw [hapi] at hapi'
  have h2 : api = api' := by
    injection hapi' with h
    injection h
  subst h2
  rw [hmiss] at hauth
  cases hauth

/-- Claim C23 at samples: the sample configuration is accepted with its
values, and the same configuration without `Authenticated` is refused. -/
theorem GetAPIConfig_succeeds_iff_witness :
    GetAPIConfig (fun _ => (sampleConfig, none)) "" =
      .ok { Authenticated := true, AllowedIPs := ["127.0.0.1"], Username := "admin",
            Password := "secret", CORS := none, Enabled := true, HTTPHeaders := none,
            SSL := false, SSLCert := "", SSLKey := "" } ∧
    GetAPIConfig (fun _ => (sampleConfigWithoutAuthenticated, none)) "" =
      .error MalformedConfigError :=
  ⟨rfl,
    (GetAPIConfig_succeeds_iff (fun _ => (sampleConfigWithoutAuthenticated, none)) "").2.2
      _ _ rfl rfl rfl⟩

end OpenBazaar
